import Mathlib

/-!
The init supervisor of CoreUtils-On-GO (`non_core/init.go`).

A shallow embedding of the supervisor: its global variables become the fields
of `InitState`, every function that touches them becomes a function on
`InitState`, and every call that leaves the program (printing, running a
command, writing a file, a system call) is recorded, in program order, as an
`Event` in the trace of the state.  What the operating system answers (a
directory listing, the outcome of starting a command) is read from a `World`,
whose answers may depend on everything the program has done so far.

Go strings are modelled by `String`, that is as text that is valid UTF-8; a
byte of the control channel is a `Fin 256`; an `int32` is an `Int` in
`[-2^31, 2^31)`.

Single functions of the other programs of the repository (`echo`, `chmod`,
`cat`, `touch`, `chown`, `cowsay`, `gsh`) are embedded after the supervisor,
each program in a namespace of its own; `echo` works on the bytes of its
arguments.
-/

namespace InitGo

/-! ## Library functions used by the source -/

/-- Go `unicode.IsSpace`: the Latin-1 spaces and the Unicode White_Space table. -/
def isSpace (c : Char) : Bool :=
  let n := c.toNat
  n = 0x09 || n = 0x0A || n = 0x0B || n = 0x0C || n = 0x0D || n = 0x20 ||
  n = 0x85 || n = 0xA0 || n = 0x1680 || (0x2000 ≤ n && n ≤ 0x200A) ||
  n = 0x2028 || n = 0x2029 || n = 0x202F || n = 0x205F || n = 0x3000

/-- Go `strings.TrimSpace`: the string without its leading and trailing white space. -/
def trimSpace (s : String) : String :=
  ⟨((s.data.dropWhile isSpace).reverse.dropWhile isSpace).reverse⟩

/-- Go `strings.HasPrefix`. -/
def startsWith (s p : String) : Bool :=
  p.data.isPrefixOf s.data

/-- Go `strings.Split` for a separator of one character, on the characters of
the string: the pieces between the occurrences of `sep`, in order. -/
def splitChars (sep : Char) : List Char → List (List Char)
  | [] => [[]]
  | c :: cs =>
    if c = sep then [] :: splitChars sep cs
    else
      match splitChars sep cs with
      | [] => [[c]]
      | piece :: pieces => (c :: piece) :: pieces

/-- Go `strings.Split(s, ":")`. -/
def splitColon (s : String) : List String :=
  (splitChars ':' s.data).map String.mk

/-- Go `string(rune(n))` for an `int32` value `n`: the one-character string of
code point `n`, and the replacement character U+FFFD when `n` is not a valid
code point (negative, a surrogate, or above U+10FFFF). -/
def stringOfRune (n : Int) : String :=
  if (0 ≤ n ∧ n < 0xD800) ∨ (0xE000 ≤ n ∧ n ≤ 0x10FFFF) then
    String.singleton (Char.ofNat n.toNat)
  else
    String.singleton (Char.ofNat 0xFFFD)

/-! ## Data model -/

/-- The `Process` struct. -/
structure Process where
  ID : String
  Runlevels : String
  Action : String
  Command : String
  PID : Int
  Status : String
  Cgroup : String
  Namespace : String
  deriving DecidableEq, Repr

/-- A call that leaves the program, in the order the program makes it. -/
inductive Event where
  /-- A call of `Printf` or `PrintLn`, with its arguments as text. -/
  | print (args : List String)
  /-- The call `cmd.Run()` of `exec.Command(argv...)`: run the command and wait for it. -/
  | run (argv : List String)
  /-- The call `cmd.Start()` of `exec.Command(argv...)` with the given clone flags. -/
  | start (argv : List String) (cloneflags : Nat)
  /-- The call `ioutil.WriteFile(path, data, 0644)`. -/
  | writeFile (path : String) (data : String)
  /-- The call `syscall.Syscall(SYS_UNSHARE, flags, 0, 0)`. -/
  | unshare (flags : Nat)
  /-- The statement `go func() { cmd.Wait(); ... }()`: a wait path for the started process. -/
  | goWait (id : String) (pid : Int)
  /-- The call `syscall.Kill(pid, sig)`. -/
  | kill (pid : Int) (sig : Nat)
  /-- The call `time.Sleep` of the given number of seconds. -/
  | sleep (seconds : Nat)
  /-- The call `syscall.Reboot(LINUX_REBOOT_CMD_POWER_OFF)`. -/
  | reboot
  /-- The call `os.MkdirAll(path, 0755)`. -/
  | mkdirAll (path : String)
  deriving DecidableEq, Repr

/-- What the operating system answers.  Every answer may depend on the trace
of the calls made so far. -/
structure World where
  /-- The names returned by `ioutil.ReadDir(dir)`, in its (sorted) order; no
  name when the directory cannot be read. -/
  readDir : List Event → String → List String
  /-- The outcome of `cmd.Start()`: the pid of the new process, or `none` when
  the start fails. -/
  cmdStart : List Event → List String → Option Int
  /-- The lines `bufio.Scanner` yields for `/etc/inittab`. -/
  inittabLines : List Event → List String
  /-- The content of `/proc/cmdline`. -/
  cmdline : List Event → String
  /-- Go `filepath.Join`. -/
  pathJoin : List String → String
  /-- Go `os.Getpid()`. -/
  getpid : Int

/-- The global variables of the program, and the trace of its calls. -/
structure InitState where
  currentRunlevel : String
  processes : List Process
  namespaces : List (String × Bool)
  cgroups : List (String × String)
  recoveryMode : Bool
  trace : List Event

/-- The globals as the `var` block initialises them. -/
def initialState : InitState :=
  { currentRunlevel := "2"
    processes := []
    namespaces := []
    cgroups := []
    recoveryMode := false
    trace := [] }

/-- Record one call in the trace. -/
def emit (e : Event) (s : InitState) : InitState :=
  { s with trace := s.trace ++ [e] }

def RC_DIR : String := "/etc/rc.d"
def CLONE_NEWNS : Nat := 0x00020000
def CLONE_NEWUTS : Nat := 0x04000000
def CLONE_NEWIPC : Nat := 0x08000000
def CLONE_NEWPID : Nat := 0x20000000

/-! ## Config loader -/

/-- The function `parseInittabLine`: a comment, a blank line and a line of fewer than four
fields add nothing; any other line appends one entry made of its first four
fields. -/
def parseInittabLine (line : String) (s : InitState) : InitState :=
  if startsWith line "#" || trimSpace line == "" then s
  else
    match splitColon line with
    | p0 :: p1 :: p2 :: p3 :: _ =>
      { s with processes := s.processes ++
          [{ ID := p0, Runlevels := p1, Action := p2, Command := p3,
             PID := 0, Status := "", Cgroup := "", Namespace := "" }] }
    | _ => s

/-- The function `loadInittab`: every line of the service table goes through `parseInittabLine`. -/
def loadInittab (w : World) (s : InitState) : InitState :=
  let s1 := emit (.print ["Loading inittab"]) s
  (w.inittabLines s1.trace).foldl (fun st line => parseInittabLine line st) s1

/-- The function `reloadConfig`: the table is loaded again. -/
def reloadConfig (w : World) (s : InitState) : InitState :=
  loadInittab w (emit (.print ["Reloading configuration"]) s)

/-! ## Process supervisor -/

/-- The function `getCloneFlags`. -/
def getCloneFlags (s : InitState) (_proc : Process) : Nat :=
  if s.namespaces.lookup "mount" = some true then CLONE_NEWPID ||| CLONE_NEWNS
  else CLONE_NEWPID

/-- The function `applyCgroup`: the pid is written to the `tasks` file of every
entry of `cgroups`.  The source ranges over a Go map, whose order is not
fixed; the order of the list stands for the order of one run. -/
def applyCgroup (w : World) (pid : Int) (s : InitState) : InitState :=
  s.cgroups.foldl
    (fun st entry => emit (.writeFile (w.pathJoin [entry.2, "tasks"]) (toString pid)) st) s

/-- The function `createNamespace`. -/
def createNamespace (proc : Process) (s : InitState) : InitState :=
  let flags :=
    if proc.Namespace = "full" then
      CLONE_NEWPID ||| (CLONE_NEWNS ||| CLONE_NEWUTS ||| CLONE_NEWIPC)
    else CLONE_NEWPID
  emit (.unshare flags) s

/-- The function `logError`. -/
def logError (id : String) (s : InitState) : InitState :=
  emit (.print ["Error in process %s: %v\n", id]) s

/-- The function `monitorProcess`, at the call: a wait path is set up for the
started process.  What the wait path does when the process exits is `onExit`. -/
def monitorProcess (proc : Process) (s : InitState) : InitState :=
  emit (.goWait proc.ID proc.PID) s

/-- The function `startProcess`.  It returns the entry it was given, with the
pid it recorded there, and the state. -/
def startProcess (w : World) (proc : Process) (s : InitState) : Process × InitState :=
  let s1 := emit (.print ["Starting process", proc.ID]) s
  let argv := ["/bin/sh", "-c", proc.Command]
  let flags := getCloneFlags s1 proc
  let s2 := applyCgroup w w.getpid s1
  let s3 := createNamespace proc s2
  let s4 := emit (.start argv flags) s3
  match w.cmdStart s3.trace argv with
  | none => (proc, logError proc.ID s4)
  | some pid =>
    let proc1 := { proc with PID := pid }
    (proc1, monitorProcess proc1 s4)

/-- The wait path of `monitorProcess`, once `cmd.Wait()` has returned: the
process of `proc` has exited. -/
def onExit (w : World) (proc : Process) (s : InitState) : Process × InitState :=
  if proc.Action = "respawn" ∧ s.recoveryMode = false then startProcess w proc s
  else (proc, s)

/-! ## Runlevel controller -/

/-- The function `executeLSB`. -/
def executeLSB (script action : String) (s : InitState) : InitState :=
  emit (.run ["/bin/sh", script, action]) s

/-- The function `manageServices`: the scripts of the runlevel directory are run
in the order of the listing, `S*` with `start` and `K*` with `stop`. -/
def manageServices (w : World) (runlevel : String) (s : InitState) : InitState :=
  let s1 := emit (.print ["Managing services for runlevel %s\n", runlevel]) s
  let dir := w.pathJoin [RC_DIR, "rc" ++ runlevel ++ ".d"]
  let files := w.readDir s1.trace dir
  files.foldl
    (fun st name =>
      let script := w.pathJoin [dir, name]
      if startsWith name "S" then executeLSB script "start" st
      else if startsWith name "K" then executeLSB script "stop" st
      else st)
    s1

/-- The function `changeRunlevel`. -/
def changeRunlevel (w : World) (level : String) (s : InitState) : InitState :=
  let s1 := emit (.print ["Changing to runlevel %s\n", level]) s
  manageServices w level { s1 with currentRunlevel := level }

/-- The function `shutdown`. -/
def shutdown (w : World) (s : InitState) : InitState :=
  emit .reboot (manageServices w "0" (emit (.print ["Shutting down"]) s))

/-! ## Control channel -/

/-- One byte of the control channel. -/
abbrev Byte := Fin 256

/-- The request struct of the control channel: `Magic [4]byte`, `Cmd int32`,
`Runlevel int32`. -/
structure ControlRequest where
  Magic : Byte × Byte × Byte × Byte
  Cmd : Int
  Runlevel : Int
  deriving DecidableEq, Repr

/-- The bytes of `req.Magic[:]`. -/
def magicBytes (req : ControlRequest) : List Byte :=
  [req.Magic.1, req.Magic.2.1, req.Magic.2.2.1, req.Magic.2.2.2]

/-- The bytes of the string `"INIT"`. -/
def INIT_MAGIC : List Byte := [0x49, 0x4E, 0x49, 0x54]

/-- The function `handleInitRequest`. -/
def handleInitRequest (w : World) (req : ControlRequest) (s : InitState) : InitState :=
  if magicBytes req ≠ INIT_MAGIC then s
  else if req.Cmd = 0 then changeRunlevel w (stringOfRune req.Runlevel) s
  else if req.Cmd = 1 then shutdown w s
  else s

/-- The value of a little-endian 32-bit word as an `int32`
(`LittleEndian.Uint32` followed by the conversion to `int32`). -/
def int32LE (b0 b1 b2 b3 : Byte) : Int :=
  let u : Nat := b0.val + 256 * b1.val + 65536 * b2.val + 16777216 * b3.val
  if u < 2147483648 then (u : Int) else (u : Int) - 4294967296

/-- One step of what the pipe delivers to `Read`: a byte, or an error (end of
input because no writer is left, or any other read error). -/
inductive ReadItem where
  | data (b : Byte)
  | fail
  deriving DecidableEq, Repr

/-- The outcome of `io.ReadFull` into a buffer of `n` bytes. -/
inductive ReadResult where
  /-- The buffer was filled; the input that is left. -/
  | full (buf : List Byte) (rest : List ReadItem)
  /-- An error came before the buffer was full; the input that is left after
  the bytes read so far and the error. -/
  | short (rest : List ReadItem)
  /-- Neither `n` bytes nor an error: the read does not return. -/
  | blocked
  deriving DecidableEq, Repr

/-- Go `io.ReadFull`: read until `n` bytes are there or a read fails.  The
bytes read so far are `acc`. -/
def readFull : Nat → List Byte → List ReadItem → ReadResult
  | 0, acc, input => .full acc input
  | _ + 1, _, [] => .blocked
  | n + 1, acc, .data b :: input => readFull n (acc ++ [b]) input
  | _ + 1, _, .fail :: input => .short input

/-- The decoder of `binary.Read` for the request struct, on the 12 bytes of the
buffer: the fields in declaration order, the integers little-endian. -/
def decodeRequest (req : ControlRequest) : List Byte → ControlRequest
  | [m0, m1, m2, m3, c0, c1, c2, c3, r0, r1, r2, r3] =>
    { Magic := (m0, m1, m2, m3), Cmd := int32LE c0 c1 c2 c3, Runlevel := int32LE r0 r1 r2 r3 }
  | _ => req

/-- Go `binary.Read(f, binary.LittleEndian, &req)` with its error dropped: the
request after the call and the input that is left, or `none` when the read
does not return.  When the read fails the request is not written. -/
def binaryRead (input : List ReadItem) (req : ControlRequest) :
    Option (ControlRequest × List ReadItem) :=
  match readFull 12 [] input with
  | .full buf rest => some (decodeRequest req buf, rest)
  | .short rest => some (req, rest)
  | .blocked => none

/-- The zero value of the request struct, as `var req` declares it. -/
def zeroRequest : ControlRequest :=
  { Magic := (0, 0, 0, 0), Cmd := 0, Runlevel := 0 }

/-- The decode loop of `startInitctlServer`, for at most `fuel` iterations: a
fresh request, one `binary.Read`, one `handleInitRequest`.  The loop has no
exit; it only stops making progress while a read does not return. -/
def serverLoop (w : World) : Nat → List ReadItem → InitState → InitState
  | 0, _, s => s
  | fuel + 1, input, s =>
    match binaryRead input zeroRequest with
    | none => s
    | some (req, rest) => serverLoop w fuel rest (handleInitRequest w req s)

/-! ## Boot, signals and recovery -/

def RECOVERY_MODE : String := "recovery"
def CGROUP_ROOT : String := "/sys/fs/cgroup"
def SIGHUP : Nat := 1
def SIGKILL : Nat := 9
def SIGUSR1 : Nat := 10
def SIGTERM : Nat := 15

/-- Go `strings.Contains`. -/
def stringsContains (s substr : String) : Bool :=
  decide (substr.data <:+: s.data)

/-- The function `kernelParamExists`: the content of `/proc/cmdline` (empty when
it cannot be read) contains the parameter. -/
def kernelParamExists (w : World) (param : String) (s : InitState) : Bool :=
  stringsContains (w.cmdline s.trace) param

/-- The function `enableSingleUserMode`: a shell is run, and waited for. -/
def enableSingleUserMode (s : InitState) : InitState :=
  emit (.run ["/bin/sh"]) (emit (.print ["Entering single user mode"]) s)

/-- The function `checkRecoveryMode`. -/
def checkRecoveryMode (w : World) (s : InitState) : InitState :=
  let s1 := emit (.print ["Checking for recovery mode"]) s
  if kernelParamExists w RECOVERY_MODE s1 then
    let s2 := emit (.print ["Entering recovery mode..."]) s1
    enableSingleUserMode { s2 with recoveryMode := true, currentRunlevel := "1" }
  else s1

/-- Assignment `m[key] = value` on a Go map kept as an association list. -/
def mapSet {β : Type} (key : String) (value : β) : List (String × β) → List (String × β)
  | [] => [(key, value)]
  | (k, v) :: rest => if k = key then (key, value) :: rest else (k, v) :: mapSet key value rest

/-- The function `initCgroups`. -/
def initCgroups (w : World) (s : InitState) : InitState :=
  ["cpu", "memory", "devices"].foldl
    (fun st subsys =>
      let path := w.pathJoin [CGROUP_ROOT, subsys, "init.scope"]
      let st1 := emit (.mkdirAll path) st
      { st1 with cgroups := mapSet subsys path st1.cgroups })
    (emit (.print ["Initializing cgroups"]) s)

/-- The function `createNamespaces`. -/
def createNamespaces (s : InitState) : InitState :=
  let s1 := emit (.print ["Creating namespaces"]) s
  { s1 with namespaces := mapSet "mount" true (mapSet "pid" true s1.namespaces) }

/-- The statements of a function run one after the other on a state. -/
def runSteps (steps : List (InitState → InitState)) (s : InitState) : InitState :=
  steps.foldl (fun st step => step st) s

/-- The statements of `killAllProcesses`, in order: its message, `SIGTERM` to
every process, two seconds of sleep, `SIGKILL` to every process. -/
def killAllProcessesSteps : List (InitState → InitState) :=
  [emit (.print ["Terminating all processes"]), emit (.kill (-1) SIGTERM),
    emit (.sleep 2), emit (.kill (-1) SIGKILL)]

/-- The function `killAllProcesses`. -/
def killAllProcesses (s : InitState) : InitState :=
  runSteps killAllProcessesSteps s

/-- The statements of `startEmergencyShell`, in order: its message, then a
shell is run, and waited for. -/
def startEmergencyShellSteps : List (InitState → InitState) :=
  [emit (.print ["Starting emergency shell"]), emit (.run ["/bin/sh"])]

/-- The function `startEmergencyShell`. -/
def startEmergencyShell (s : InitState) : InitState :=
  runSteps startEmergencyShellSteps s

/-- The statements of `enterRecoveryMode`, in order, those of the two functions
it calls included: its message, the assignment `recoveryMode = true`, the
statements of `killAllProcesses`, the statements of `startEmergencyShell`. -/
def enterRecoveryModeSteps : List (InitState → InitState) :=
  [emit (.print ["Entering recovery mode"]), fun s => { s with recoveryMode := true }] ++
    killAllProcessesSteps ++ startEmergencyShellSteps

/-- The function `enterRecoveryMode`. -/
def enterRecoveryMode (s : InitState) : InitState :=
  runSteps enterRecoveryModeSteps s

/-- The body of the loop of `handleSignals` for one signal. -/
def handleSignal (w : World) (sig : Nat) (s : InitState) : InitState :=
  if sig = SIGHUP then reloadConfig w s
  else if sig = SIGUSR1 then enterRecoveryMode s
  else s

/-- An exit notification that arrives while the statements `steps` run, after
the first `k` of them: the wait path of `proc` runs on the state reached
then, and the statements that are left run after it. -/
def exitDuring (w : World) (steps : List (InitState → InitState)) (k : Nat)
    (proc : Process) (s : InitState) : Process × InitState :=
  let r := onExit w proc (runSteps (steps.take k) s)
  (r.1, runSteps (steps.drop k) r.2)

/-- The states that a run of the program reaches.  A run starts in the initial
state; `main` and the two listeners it starts call `checkRecoveryMode`,
`loadInittab`, `initCgroups`, `createNamespaces`, `manageServices`,
`startEmergencyShell`, the body of `handleSignals` and `handleInitRequest`,
and make outside calls that leave the globals alone (mounts, the terminal,
the pipe).  No run calls `startProcess`: its only call is in the wait path
that an earlier `startProcess` sets up. -/
inductive Reachable (w : World) : InitState → Prop where
  | boot : Reachable w initialState
  | outsideCall (e : Event) (s : InitState) : Reachable w s → Reachable w (emit e s)
  | recoveryCheck (s : InitState) : Reachable w s → Reachable w (checkRecoveryMode w s)
  | tableLoad (s : InitState) : Reachable w s → Reachable w (loadInittab w s)
  | cgroupInit (s : InitState) : Reachable w s → Reachable w (initCgroups w s)
  | namespaceInit (s : InitState) : Reachable w s → Reachable w (createNamespaces s)
  | services (runlevel : String) (s : InitState) :
      Reachable w s → Reachable w (manageServices w runlevel s)
  | emergencyShell (s : InitState) : Reachable w s → Reachable w (startEmergencyShell s)
  | signal (sig : Nat) (s : InitState) : Reachable w s → Reachable w (handleSignal w sig s)
  | request (req : ControlRequest) (s : InitState) :
      Reachable w s → Reachable w (handleInitRequest w req s)

/-! ## Notions of the specification -/

/-- A table entry is running when `startProcess` has recorded a pid in it. -/
def isRunning (p : Process) : Bool :=
  p.PID != 0

/-- The identifiers of the running entries of the table. -/
def runningIds (s : InitState) : List String :=
  (s.processes.filter isRunning).map (·.ID)

/-- Spec: a definition is valid for a runlevel when its runlevel string
contains the runlevel. -/
def specValidFor (level : String) (p : Process) : Bool :=
  decide (level.data <:+: p.Runlevels.data)

/-- Spec: the identifiers of the definitions valid for a runlevel. -/
def specValidIds (level : String) (s : InitState) : List String :=
  (s.processes.filter (specValidFor level)).map (·.ID)

/-- The number of calls of `startProcess` for identifier `id` that a trace
records: every call prints `Starting process` and the identifier first, and
nothing else prints that. -/
def startCalls (id : String) (trace : List Event) : Nat :=
  trace.count (.print ["Starting process", id])

/-- What the pipe delivers for one iteration of the decode loop: the 12 bytes
of a complete frame, or fewer than 12 bytes followed by a failed read. -/
inductive ReadChunk where
  | complete (m0 m1 m2 m3 c0 c1 c2 c3 r0 r1 r2 r3 : Byte)
  | broken (bs : List Byte)
  deriving DecidableEq, Repr

/-- The read items of a chunk. -/
def ReadChunk.items : ReadChunk → List ReadItem
  | .complete m0 m1 m2 m3 c0 c1 c2 c3 r0 r1 r2 r3 =>
    [m0, m1, m2, m3, c0, c1, c2, c3, r0, r1, r2, r3].map ReadItem.data
  | .broken bs => bs.map ReadItem.data ++ [ReadItem.fail]

/-- A broken chunk has fewer than 12 bytes. -/
def ReadChunk.wellFormed : ReadChunk → Bool
  | .complete _ _ _ _ _ _ _ _ _ _ _ _ => true
  | .broken bs => decide (bs.length < 12)

/-- Spec: what the server does with a chunk: the request of a complete frame is
handled, a broken frame is dropped. -/
def ReadChunk.handle (w : World) : ReadChunk → InitState → InitState
  | .complete m0 m1 m2 m3 c0 c1 c2 c3 r0 r1 r2 r3, s =>
    handleInitRequest w
      { Magic := (m0, m1, m2, m3), Cmd := int32LE c0 c1 c2 c3, Runlevel := int32LE r0 r1 r2 r3 } s
  | .broken _, s => s

/-- The state after `n` exit notifications in a row for the process of `proc`. -/
def deliverExits (w : World) : Nat → Process → InitState → Process × InitState
  | 0, proc, s => (proc, s)
  | n + 1, proc, s => deliverExits w n (onExit w proc s).1 (onExit w proc s).2

/-- What `manageServices` does for one name of the listing: the command it
runs, if any. -/
def scriptRun (w : World) (dir name : String) : Option Event :=
  if startsWith name "S" then some (.run ["/bin/sh", w.pathJoin [dir, name], "start"])
  else if startsWith name "K" then some (.run ["/bin/sh", w.pathJoin [dir, name], "stop"])
  else none

/-- The calls of `manageServices` for a runlevel, when the trace so far is
`trace`: its message, then one command for each `S*` and `K*` name of the
listing of the runlevel directory. -/
def manageEvents (w : World) (runlevel : String) (trace : List Event) : List Event :=
  let msg := Event.print ["Managing services for runlevel %s\n", runlevel]
  let dir := w.pathJoin [RC_DIR, "rc" ++ runlevel ++ ".d"]
  msg :: (w.readDir (trace ++ [msg]) dir).filterMap (scriptRun w dir)

/-- Spec: the `n`-th colon-delimited field of a line, counted from 0: the text
before the first colon of what follows the `n`-th colon. -/
def specField : Nat → List Char → List Char
  | 0, l => l.takeWhile (· != ':')
  | n + 1, l => specField n (l.dropWhile (· != ':')).tail

/-- Spec: the definition that a line of the service table stands for: none for
a comment, a blank line and a line of fewer than four fields, otherwise the
definition made of the first four fields. -/
def specDefinition (line : String) : Option Process :=
  if line.data.head? = some '#' ∨ line.data.all isSpace = true ∨ line.data.count ':' < 3 then
    none
  else
    some { ID := ⟨specField 0 line.data⟩, Runlevels := ⟨specField 1 line.data⟩,
           Action := ⟨specField 2 line.data⟩, Command := ⟨specField 3 line.data⟩,
           PID := 0, Status := "", Cgroup := "", Namespace := "" }

/-- Whether a set of clone flags contains a flag. -/
def hasFlag (flags flag : Nat) : Bool :=
  flags &&& flag = flag

/-- The number of calls of `cmd.Start()` for a command that a trace records. -/
def spawnCalls (command : String) (trace : List Event) : Nat :=
  trace.countP (fun e => match e with
    | .start argv _ => argv = ["/bin/sh", "-c", command]
    | _ => false)

/-- A world whose service table is the single line `a:23:respawn:true`, in
which every command starts, with pid 42, and the supervisor has pid 1. -/
def tableWorld : World :=
  { readDir := fun _ _ => []
    cmdStart := fun _ _ => some 42
    inittabLines := fun _ => ["a:23:respawn:true"]
    cmdline := fun _ => "BOOT_IMAGE=/vmlinuz root=/dev/sda1 quiet"
    pathJoin := fun parts => "/".intercalate parts
    getpid := 1 }

/-- A world like `tableWorld` in which the pid of a started command is 100 plus
the number of calls made before the start, so that two starts get two pids. -/
def spawnWorld : World :=
  { tableWorld with cmdStart := fun trace _ => some (100 + (trace.length : Int)) }

/-- A world like `tableWorld` whose kernel command line has the recovery marker. -/
def recoveryWorld : World :=
  { tableWorld with cmdline := fun _ => "BOOT_IMAGE=/vmlinuz root=/dev/sda1 recovery" }

/-- The wait paths that a trace sets up: the identifier and the pid of every
process started with success. -/
def waitPaths (trace : List Event) : List (String × Int) :=
  trace.filterMap (fun e => match e with
    | .goWait id pid => some (id, pid)
    | _ => none)

/-- Spec: at most one live process for every identifier, in a list of the live
processes (identifier and pid). -/
def AtMostOneLive (live : List (String × Int)) : Prop :=
  ∀ id : String, live.countP (fun entry => entry.1 == id) ≤ 1

/-- The list of the live processes without the first occurrence of a process. -/
def removeLive (id : String) (pid : Int) : List (String × Int) → List (String × Int)
  | [] => []
  | entry :: rest => if entry = (id, pid) then rest else entry :: removeLive id pid rest

/-- An exit notification for the live process of `proc`, on the state and the
list of the live processes: the process is no longer live, the wait path
runs, and what it starts is live. -/
def exitStep (w : World) (proc : Process) (x : InitState × List (String × Int)) :
    InitState × List (String × Int) :=
  ((onExit w proc x.1).2,
    removeLive proc.ID proc.PID x.2 ++
      waitPaths ((onExit w proc x.1).2.trace.drop x.1.trace.length))

/-- A call of `startProcess` that does not come from the wait path, on the
state and the list of the live processes: nothing has exited, and what the
call starts is live. -/
def directStart (w : World) (proc : Process) (x : InitState × List (String × Int)) :
    InitState × List (String × Int) :=
  ((startProcess w proc x.1).2,
    x.2 ++ waitPaths ((startProcess w proc x.1).2.trace.drop x.1.trace.length))

/-- The calls of `startProcess` before its call of `cmd.Start()`: the message,
one write of the supervisor pid for each entry of `cgroups`, and `unshare`. -/
def prepareEvents (w : World) (proc : Process) (s : InitState) : List Event :=
  Event.print ["Starting process", proc.ID] ::
    (s.cgroups.map
      (fun entry => Event.writeFile (w.pathJoin [entry.2, "tasks"]) (toString w.getpid)) ++
    [Event.unshare
      (if proc.Namespace = "full" then
        CLONE_NEWPID ||| (CLONE_NEWNS ||| CLONE_NEWUTS ||| CLONE_NEWIPC)
      else CLONE_NEWPID)])

/-- The entry `a` of the example table. -/
def entryA : Process :=
  { ID := "a", Runlevels := "23", Action := "respawn", Command := "true",
    PID := 0, Status := "", Cgroup := "", Namespace := "" }

/-- The entry `b` of the example table. -/
def entryB : Process :=
  { ID := "b", Runlevels := "3", Action := "once", Command := "true",
    PID := 0, Status := "", Cgroup := "", Namespace := "" }

/-- The service table of the example: `a:23:respawn:true` and `b:3:once:true`,
loaded line by line into the initial state. -/
def exampleTable : InitState :=
  parseInittabLine "b:3:once:true" (parseInittabLine "a:23:respawn:true" initialState)

/-- A world in which no directory can be listed and no command starts. -/
def emptyWorld : World :=
  { readDir := fun _ _ => []
    cmdStart := fun _ _ => none
    inittabLines := fun _ => []
    cmdline := fun _ => ""
    pathJoin := fun parts => "/".intercalate parts
    getpid := 1 }

end InitGo

/-! ## The shell `gsh` (`non_core/gsh.go`): pipelines -/

namespace GshGo

/-- The loop of `splitPipeline` over the arguments that are left, with the
variables `commands` and `currentCmd`, and its final append. -/
def splitLoop : List String → List (List String) → List String → List (List String)
  | [], commands, currentCmd =>
    if currentCmd.length > 0 then commands ++ [currentCmd] else commands
  | arg :: args, commands, currentCmd =>
    if arg = "|" then
      if currentCmd.length > 0 then splitLoop args (commands ++ [currentCmd]) []
      else splitLoop args commands currentCmd
    else splitLoop args commands (currentCmd ++ [arg])

/-- The function `splitPipeline`. -/
def splitPipeline (args : List String) : List (List String) :=
  splitLoop args [] []

/-- The check of `main` on the result of `splitPipeline`: the variable `valid`
after the loop that prints `Invalid pipe syntax` for an empty command. -/
def pipelineValid (pipelineCommands : List (List String)) : Bool :=
  pipelineCommands.all (fun cmd => cmd.length != 0)

end GshGo

/-! ## The program `cowsay` (`non_core/cowsay.go`): wrapping -/

namespace CowsayGo

/-- The scan of `strings.Fields` over the characters that are left; `cur` is the
word being read, empty between words. -/
def fieldsAux : List Char → List Char → List (List Char)
  | [], cur => if cur = [] then [] else [cur]
  | c :: cs, cur =>
    if InitGo.isSpace c then
      if cur = [] then fieldsAux cs [] else cur :: fieldsAux cs []
    else fieldsAux cs (cur ++ [c])

/-- Go `strings.Fields`: the maximal runs of characters that are not white
space, in order. -/
def fields (s : String) : List String :=
  (fieldsAux s.data []).map String.mk

/-- Go `len(s)`: the number of bytes of the UTF-8 encoding of the string. -/
def byteLen (s : String) : Nat :=
  (s.data.map Char.utf8Size).sum

/-- The loop of `wrapLine` over the words that are left, with the variables
`lines` and `current`, and its final append. -/
def wrapLoop (width : Int) : List String → List String → String → List String
  | [], lines, current => lines ++ [current]
  | word :: rest, lines, current =>
    if (byteLen current : Int) + 1 + (byteLen word : Int) > width then
      wrapLoop width rest (lines ++ [current]) word
    else wrapLoop width rest lines (current ++ " " ++ word)

/-- The function `wrapLine`. -/
def wrapLine (line : String) (width : Int) : List String :=
  match fields line with
  | [] => [""]
  | first :: rest => wrapLoop width rest [] first

/-- A word: not empty, and without white space. -/
def IsWord (w : List Char) : Prop :=
  w ≠ [] ∧ ∀ c ∈ w, InitGo.isSpace c = false

end CowsayGo

/-! ## The shell `gsh`: what `main` does with a line -/

namespace GshGo

/-- What one iteration of `mainLoop` does with the line it has read, up to the
point where it takes up the command or the pipeline. -/
inductive LineOutcome where
  /-- The line is empty or has no argument: `continue`. -/
  | skipped
  /-- A command is empty: `Invalid pipe syntax` is printed. -/
  | invalidPipeSyntax
  /-- More than one command: the branch of the pipelines. -/
  | pipeline (pipelineCommands : List (List String))
  /-- One command: `args = pipelineCommands[0]` and the command is taken up. -/
  | single (args : List String)
  /-- No command: `pipelineCommands[0]` is out of range and the shell panics. -/
  | indexOutOfRange
  deriving DecidableEq, Repr

/-- The head of one iteration of `mainLoop` for the line `input`. -/
def dispatchLine (input : String) : LineOutcome :=
  if input = "" then .skipped
  else
    let args := CowsayGo.fields input
    if args.length = 0 then .skipped
    else
      let pipelineCommands := splitPipeline args
      if pipelineValid pipelineCommands = false then .invalidPipeSyntax
      else if pipelineCommands.length > 1 then .pipeline pipelineCommands
      else
        match pipelineCommands with
        | [] => .indexOutOfRange
        | args0 :: _ => .single args0

end GshGo

/-! ## The program `echo` (`echo.go`) -/

namespace EchoGo

/-- The byte of an ASCII character. -/
def byteOf (c : Char) : InitGo.Byte :=
  Fin.ofNat c.toNat

/-- The bytes of a Go string: the UTF-8 encoding of its text. -/
def bytesOf (s : String) : List InitGo.Byte :=
  (s.data.flatMap String.utf8EncodeChar).map (·.val)

/-- The flags of `echo`, and the value of the environment variable
`POSIXLY_CORRECT`. -/
structure EchoConfig where
  noNewline : Bool
  enableEscape : Bool
  disableEscape : Bool
  posixlyCorrect : String

/-- The function `isHexDigit`. -/
def isHexDigit (c : InitGo.Byte) : Bool :=
  (byteOf '0' ≤ c && c ≤ byteOf '9') || (byteOf 'a' ≤ c && c ≤ byteOf 'f') ||
    (byteOf 'A' ≤ c && c ≤ byteOf 'F')

/-- The function `isOctalDigit`. -/
def isOctalDigit (c : InitGo.Byte) : Bool :=
  byteOf '0' ≤ c && c ≤ byteOf '7'

/-- The function `hexToByte`; byte arithmetic is modulo 256. -/
def hexToByte (c : InitGo.Byte) : InitGo.Byte :=
  if byteOf '0' ≤ c ∧ c ≤ byteOf '9' then c - byteOf '0'
  else if byteOf 'a' ≤ c ∧ c ≤ byteOf 'f' then c - byteOf 'a' + 10
  else if byteOf 'A' ≤ c ∧ c ≤ byteOf 'F' then c - byteOf 'A' + 10
  else 0

/-- The loop `for i < n` of `processEscapeSequences`, with the variables `i`
and `result`, for at most `fuel` iterations.  Every iteration advances `i`,
so `len(s)` iterations are enough. -/
def escapeLoop (s : List InitGo.Byte) : Nat → Nat → List InitGo.Byte → List InitGo.Byte
  | 0, _, result => result
  | fuel + 1, i, result =>
    let n := s.length
    if i < n then
      if s.getD i 0 = byteOf '\\' ∧ i + 1 < n then
        let c := s.getD (i + 1) 0
        if c = byteOf 'a' then escapeLoop s fuel (i + 2) (result ++ [7])
        else if c = byteOf 'b' then escapeLoop s fuel (i + 2) (result ++ [8])
        else if c = byteOf 'c' then result
        else if c = byteOf 'e' then escapeLoop s fuel (i + 2) (result ++ [0x1B])
        else if c = byteOf 'f' then escapeLoop s fuel (i + 2) (result ++ [12])
        else if c = byteOf 'n' then escapeLoop s fuel (i + 2) (result ++ [10])
        else if c = byteOf 'r' then escapeLoop s fuel (i + 2) (result ++ [13])
        else if c = byteOf 't' then escapeLoop s fuel (i + 2) (result ++ [9])
        else if c = byteOf 'v' then escapeLoop s fuel (i + 2) (result ++ [11])
        else if c = byteOf 'x' then
          if i + 2 < n ∧ isHexDigit (s.getD (i + 2) 0) = true then
            let val := hexToByte (s.getD (i + 2) 0)
            if i + 3 < n ∧ isHexDigit (s.getD (i + 3) 0) = true then
              escapeLoop s fuel (i + 4) (result ++ [val * 16 + hexToByte (s.getD (i + 3) 0)])
            else escapeLoop s fuel (i + 3) (result ++ [val])
          else escapeLoop s fuel (i + 2) (result ++ [byteOf '\\', byteOf 'x'])
        else if c = byteOf '0' then
          if i + 2 < n ∧ isOctalDigit (s.getD (i + 2) 0) = true then
            let val := s.getD (i + 2) 0 - byteOf '0'
            if i + 3 < n ∧ isOctalDigit (s.getD (i + 3) 0) = true then
              let val2 := val * 8 + (s.getD (i + 3) 0 - byteOf '0')
              if i + 4 < n ∧ isOctalDigit (s.getD (i + 4) 0) = true then
                escapeLoop s fuel (i + 5)
                  (result ++ [val2 * 8 + (s.getD (i + 4) 0 - byteOf '0')])
              else escapeLoop s fuel (i + 4) (result ++ [val2])
            else escapeLoop s fuel (i + 3) (result ++ [val])
          else escapeLoop s fuel (i + 1) (result ++ [byteOf '\\'])
        else if c = byteOf '\\' then escapeLoop s fuel (i + 2) (result ++ [byteOf '\\'])
        else escapeLoop s fuel (i + 2) (result ++ [byteOf '\\', c])
      else escapeLoop s fuel (i + 1) (result ++ [s.getD i 0])
    else result

/-- The function `processEscapeSequences`. -/
def processEscapeSequences (s : List InitGo.Byte) : List InitGo.Byte :=
  escapeLoop s s.length 0 []

/-- The loop of `processEcho` over the arguments that are left, with the
variables `first` and `output`. -/
def echoLoop (processEscapes : Bool) :
    List (List InitGo.Byte) → Bool → List InitGo.Byte → List InitGo.Byte
  | [], _, output => output
  | arg :: args, first, output =>
    let output1 := if first then output else output ++ [byteOf ' ']
    if processEscapes then echoLoop processEscapes args false (output1 ++ processEscapeSequences arg)
    else echoLoop processEscapes args false (output1 ++ arg)

/-- The function `processEcho`: the bytes it prints. -/
def processEcho (cfg : EchoConfig) (args : List (List InitGo.Byte)) : List InitGo.Byte :=
  let processEscapes :=
    cfg.enableEscape || (!cfg.disableEscape && cfg.posixlyCorrect == "")
  let output := echoLoop processEscapes args true []
  if !cfg.noNewline then output ++ [byteOf '\n'] else output

/-- The configuration of `echo -e`: escapes are interpreted and the trailing
newline is written. -/
def escapesOn : EchoConfig :=
  { noNewline := false, enableEscape := true, disableEscape := false, posixlyCorrect := "" }

end EchoGo

/-! ## The program `chmod` (`core/chmod.go`): modes -/

namespace ChmodGo

/-- The result of `parseMode`: a mode and no error, one of its two errors, or
the panic of `modeStr[0]` on the empty string. -/
inductive ModeResult where
  | ok (mode : Nat)
  | parseUintError
  | invalidSpecification
  | indexOutOfRange
  deriving DecidableEq, Repr

/-- Go `strconv.ParseUint(s, 8, 32)`: the value of a non-empty string of octal
digits, if it fits in 32 bits. -/
def parseUintOctal (s : List Char) : Option Nat :=
  if s = [] then none
  else if s.all (fun c => decide ('0' ≤ c ∧ c ≤ '7')) then
    let value := s.foldl (fun acc c => acc * 8 + (c.toNat - '0'.toNat)) 0
    if value < 4294967296 then some value else none
  else none

/-- Go `strings.ToLower`, on one character.  The ASCII capitals are mapped;
the capitals outside ASCII, which Go maps too, never map to a character that
`parseMode` looks at. -/
def toLowerChar (c : Char) : Char :=
  if 'A' ≤ c ∧ c ≤ 'Z' then Char.ofNat (c.toNat + 32) else c

/-- Go `strings.TrimPrefix`. -/
def trimPrefix (s p : String) : String :=
  if p.data.isPrefixOf s.data then ⟨s.data.drop p.data.length⟩ else s

/-- The function `parseWhoPerm`. -/
def parseWhoPerm (part pre : String) (mask : Nat) : Nat :=
  (trimPrefix part pre).data.foldl
    (fun mode c =>
      if c = 'r' then mode ||| (mask &&& 0o444)
      else if c = 'w' then mode ||| (mask &&& 0o222)
      else if c = 'x' then mode ||| (mask &&& 0o111)
      else mode)
    0

/-- The loop of `parseMode` over the clauses that are left, with the variable
`mode`. -/
def parseParts : List String → Nat → ModeResult
  | [], mode => .ok mode
  | part :: parts, mode =>
    if InitGo.stringsContains part "u=" then parseParts parts (mode ||| parseWhoPerm part "u=" 0o600)
    else if InitGo.stringsContains part "g=" then
      parseParts parts (mode ||| parseWhoPerm part "g=" 0o060)
    else if InitGo.stringsContains part "o=" then
      parseParts parts (mode ||| parseWhoPerm part "o=" 0o007)
    else if InitGo.stringsContains part "a=" then
      parseParts parts (mode ||| parseWhoPerm part "a=" 0o666)
    else if part = "+x" then parseParts parts (mode ||| 0o111)
    else if part = "-x" then parseParts parts (mode &&& (4294967295 ^^^ 0o111))
    else .invalidSpecification

/-- The function `parseMode`. -/
def parseMode (modeStr : String) : ModeResult :=
  match modeStr.data with
  | [] => .indexOutOfRange
  | c :: _ =>
    if '0' ≤ c ∧ c ≤ '7' then
      match parseUintOctal modeStr.data with
      | none => .parseUintError
      | some mode => .ok mode
    else
      let lowerModeStr := modeStr.data.map toLowerChar
      parseParts ((InitGo.splitChars ',' lowerModeStr).map String.mk) 0

end ChmodGo

/-! ## The program `cat` (`cat.go`): the option `-v` -/

namespace CatGo

/-- The flags that `processNonprinting` reads. -/
structure CatFlags where
  showNonprinting : Bool
  showTabs : Bool

/-- What `processNonprinting` writes for one character of the line. -/
def showRune (flags : CatFlags) (r : Char) : List Char :=
  let n := r.toNat
  if r = '\t' ∧ flags.showTabs = true then "^I".data
  else if 32 ≤ n ∧ n < 127 then [r]
  else if n = 127 then "^?".data
  else if n < 32 then ['^', Char.ofNat (n + 64)]
  else if 128 ≤ n ∧ n < 128 + 32 then "M-^".data ++ [Char.ofNat (n - 128 + 64)]
  else if 128 + 32 ≤ n ∧ n < 128 + 127 then "M-".data ++ [Char.ofNat (n - 128)]
  else if 128 + 127 ≤ n then "M-^?".data
  else [r]

/-- The function `processNonprinting`. -/
def processNonprinting (flags : CatFlags) (s : String) : String :=
  if !(flags.showNonprinting || flags.showTabs) then s
  else ⟨s.data.flatMap (showRune flags)⟩

end CatGo

/-! ## The program `touch` (`CoreUtils-GO/touch.go`) -/

namespace TouchGo

/-- The constant `ATIME`: `1 << iota` on the second line of the `const` block. -/
def ATIME : Nat := 2

/-- The constant `MTIME`: `1 << iota` on the third line of the `const` block. -/
def MTIME : Nat := 4

/-- The two times that the file system keeps for a file. -/
structure FileTimes where
  atime : Int
  mtime : Int
  deriving DecidableEq, Repr

/-- What the program reads from an `os.FileInfo`: the result of `ModTime()`. -/
structure FileInfo where
  modTime : Int
  deriving DecidableEq, Repr

/-- The files and their times; a path without a file has none.  Symbolic links
are not modelled, so `os.Stat` and `os.Lstat` agree. -/
abbrev Fs := String → Option FileTimes

/-- The flags that `touchFile` reads, and what the system answers. -/
structure TouchWorld where
  noDereference : Bool
  noCreate : Bool
  /-- The result of `time.Now()`. -/
  now : Int
  /-- The time at which `os.Create` makes a file. -/
  createTime : Int
  /-- Whether `os.Create(path)` succeeds. -/
  canCreate : String → Bool
  /-- Whether `os.Chtimes` on the path is permitted. -/
  canChtimes : String → Bool

/-- The errors of `touchFile`. -/
inductive TouchError where
  | cannotCreate
  | cannotStat
  | settingTimes
  | chtimes
  deriving DecidableEq, Repr

/-- The function `getFileInfo`. -/
def getFileInfo (fs : Fs) (path : String) (_noDereference : Bool) : Option FileInfo :=
  (fs path).map (fun t => { modTime := t.mtime })

/-- The function `getAtime`. -/
def getAtime (fi : FileInfo) : Int :=
  fi.modTime

/-- The function `getMtime`. -/
def getMtime (fi : FileInfo) : Int :=
  fi.modTime

/-- The zero `time.Time`, January 1 of the year 1, in seconds since 1970; the
times of this model are seconds since 1970. -/
def zeroTime : Int := -62135596800

/-- Go `os.Chtimes(path, atime, mtime)`: the file system after the call, or none
when the call fails.  A time that is the zero `time.Time` leaves the time of the
file as it is. -/
def chtimes (w : TouchWorld) (fs : Fs) (path : String) (atime mtime : Int) : Option Fs :=
  match fs path with
  | some old =>
    if w.canChtimes path = true then
      some (fun p =>
        if p = path then
          some { atime := if atime = zeroTime then old.atime else atime,
                 mtime := if mtime = zeroTime then old.mtime else mtime }
        else fs p)
    else none
  | none => none

/-- The function `touchStdout`. -/
def touchStdout (w : TouchWorld) (fs : Fs) : Option TouchError × Fs :=
  match chtimes w fs "/proc/self/fd/1" w.now w.now with
  | some fs1 => (none, fs1)
  | none => (some .chtimes, fs)

/-- The tail of `touchFile`, from `var atime, mtime time.Time` on, once the file
information is there. -/
def setTimes (w : TouchWorld) (file : String) (changeTimes : Nat) (newTimes : Int × Int)
    (useCurrentTime : Bool) (fileInfo : FileInfo) (fs : Fs) : Option TouchError × Fs :=
  let atime :=
    if useCurrentTime then
      if changeTimes &&& ATIME ≠ 0 then w.now else getAtime fileInfo
    else
      if changeTimes &&& ATIME ≠ 0 then newTimes.1 else getAtime fileInfo
  let mtime :=
    if useCurrentTime then
      if changeTimes &&& MTIME ≠ 0 then w.now else getMtime fileInfo
    else
      if changeTimes &&& MTIME ≠ 0 then newTimes.2 else getMtime fileInfo
  match chtimes w fs file atime mtime with
  | some fs1 => (none, fs1)
  | none => (some .settingTimes, fs)

/-- The function `touchFile`: its error, if any, and the file system after it. -/
def touchFile (w : TouchWorld) (file : String) (changeTimes : Nat) (newTimes : Int × Int)
    (useCurrentTime : Bool) (fs : Fs) : Option TouchError × Fs :=
  if file = "-" then touchStdout w fs
  else
    match getFileInfo fs file w.noDereference with
    | some fileInfo => setTimes w file changeTimes newTimes useCurrentTime fileInfo fs
    | none =>
      if w.noCreate then (none, fs)
      else if w.canCreate file = true then
        let fs1 : Fs := fun p =>
          if p = file then some { atime := w.createTime, mtime := w.createTime } else fs p
        match getFileInfo fs1 file w.noDereference with
        | some fileInfo => setTimes w file changeTimes newTimes useCurrentTime fileInfo fs1
        | none => (some .cannotStat, fs1)
      else (some .cannotCreate, fs)

/-- A file system with the single file `f`, last read at time 100 and last
written at time 200. -/
def oneFile : Fs :=
  fun p => if p = "f" then some { atime := 100, mtime := 200 } else none

/-- A world in which it is time 300 and every call is permitted. -/
def permissive : TouchWorld :=
  { noDereference := false, noCreate := false, now := 300, createTime := 299,
    canCreate := fun _ => true, canChtimes := fun _ => true }

end TouchGo

/-! ## The program `chown` (`chown.go`): recursion and the root -/

namespace ChownGo

/-- A file tree: a file or a directory, with the owner and the group, and for a
directory its entries in the order of their names.  Symbolic links are not
modelled, so `os.Stat` and `os.Lstat` agree. -/
inductive FsNode where
  | file (uid gid : Nat)
  | dir (uid gid : Nat) (entries : List (String × FsNode))
  deriving Repr

/-- The struct `ChownOptions`. -/
structure ChownOptions where
  recurse : Bool
  verbosity : Nat
  forceSilent : Bool
  affectSymlinkReferent : Bool
  userName : String
  groupName : String
  preserveRoot : Bool

/-- The errors that the walk hands around: `filepath.SkipDir`, a path that does
not exist, and a refused `os.Chown`. -/
inductive WalkError where
  | skipDir
  | notExist (path : String)
  | chownFailed (path : String)
  deriving DecidableEq, Repr

/-- The owner in `stat.Uid`. -/
def FsNode.uid : FsNode → Nat
  | .file uid _ => uid
  | .dir uid _ _ => uid

/-- The group in `stat.Gid`. -/
def FsNode.gid : FsNode → Nat
  | .file _ gid => gid
  | .dir _ gid _ => gid

/-- The result of `info.IsDir()`. -/
def FsNode.isDir : FsNode → Bool
  | .file _ _ => false
  | .dir _ _ _ => true

/-- The node after `os.Chown(path, uid, gid)`: `chown(2)` takes the identifier
4294967295, which is `-1` as `uid_t` or `gid_t`, as the request to leave that
identifier as it is. -/
def FsNode.setOwner (uid gid : Nat) : FsNode → FsNode
  | .file oldUid oldGid =>
    .file (if uid = 4294967295 then oldUid else uid) (if gid = 4294967295 then oldGid else gid)
  | .dir oldUid oldGid entries =>
    .dir (if uid = 4294967295 then oldUid else uid) (if gid = 4294967295 then oldGid else gid)
      entries

/-- Go `filepath.Join(path, name)` for a clean path and a file name. -/
def joinPath (path name : String) : String :=
  if path = "/" then "/" ++ name else path ++ "/" ++ name

/-- The function `changeOwnership` on the file at `path`, which is `node`; the
diagnostic that it prints under `-v` and `-c` is left out.  An `int` given as
owner or group is converted to `uint32`. -/
def changeOwnership (canChown : String → Bool) (path : String)
    (uid gid requiredUid requiredGid : Int) (node : FsNode) : FsNode × Option WalkError :=
  if requiredUid ≠ -1 ∧ (node.uid : Int) ≠ requiredUid then (node, none)
  else if requiredGid ≠ -1 ∧ (node.gid : Int) ≠ requiredGid then (node, none)
  else
    let newUid := if uid ≠ -1 then (uid % 4294967296).toNat else node.uid
    let newGid := if gid ≠ -1 then (gid % 4294967296).toNat else node.gid
    if newUid = node.uid ∧ newGid = node.gid then (node, none)
    else if canChown path = true then (node.setOwner newUid newGid, none)
    else (node, some (.chownFailed path))

/-- The function literal that `chownFile` hands to `filepath.Walk`, called
without an error on the file at `filePath`. -/
def walkFn (canChown : String → Bool) (options : ChownOptions) (path : String)
    (uid gid requiredUid requiredGid : Int) (filePath : String) (node : FsNode) :
    FsNode × Option WalkError :=
  if options.preserveRoot = true ∧ filePath = "/" ∧ path ≠ "/" then (node, some .skipDir)
  else changeOwnership canChown filePath uid gid requiredUid requiredGid node

mutual
/-- Go `filepath.walk`: the function is called on the file; for a directory on
which it returns no error the entries are walked in order. -/
def walk (fn : String → FsNode → FsNode × Option WalkError) (path : String) :
    FsNode → FsNode × Option WalkError
  | .file uid gid => fn path (.file uid gid)
  | .dir uid gid entries =>
    match fn path (.dir uid gid entries) with
    | (node1, some err) => (node1, some err)
    | (node1, none) =>
      match walkEntries fn path entries with
      | (entries1, err) => (.dir node1.uid node1.gid entries1, err)
/-- The loop of `filepath.walk` over the names of a directory: an error of an
entry ends the walk, unless the entry is a directory and the error is
`SkipDir`. -/
def walkEntries (fn : String → FsNode → FsNode × Option WalkError) (path : String) :
    List (String × FsNode) → List (String × FsNode) × Option WalkError
  | [] => ([], none)
  | (name, child) :: rest =>
    match walk fn (joinPath path name) child with
    | (child1, some err) =>
      if child.isDir = false ∨ err ≠ .skipDir then ((name, child1) :: rest, some err)
      else
        match walkEntries fn path rest with
        | (rest1, err1) => ((name, child1) :: rest1, err1)
    | (child1, none) =>
      match walkEntries fn path rest with
      | (rest1, err1) => ((name, child1) :: rest1, err1)
end

/-- Go `filepath.Walk(root, fn)` on the tree at `root`, which is `tree`, or
nothing when `root` does not exist: `SkipDir` from the walk is no error. -/
def filepathWalk (fn : String → FsNode → FsNode × Option WalkError) (root : String)
    (tree : Option FsNode) : Option FsNode × Option WalkError :=
  match tree with
  | none => (none, some (.notExist root))
  | some node =>
    match walk fn root node with
    | (node1, some .skipDir) => (some node1, none)
    | (node1, err) => (some node1, err)

/-- The function `chownFile` on the tree at `path`: the tree after the call and
the error returned. -/
def chownFile (canChown : String → Bool) (path : String)
    (uid gid requiredUid requiredGid : Int) (options : ChownOptions)
    (tree : Option FsNode) : Option FsNode × Option WalkError :=
  if options.recurse then
    filepathWalk (walkFn canChown options path uid gid requiredUid requiredGid) path tree
  else
    match tree with
    | none => (none, some (.notExist path))
    | some node =>
      match changeOwnership canChown path uid gid requiredUid requiredGid node with
      | (node1, err) => (some node1, err)

/-- A root directory with the directory `etc` and the file `etc/passwd` in it,
all owned by user 1000 and group 1000. -/
def smallRoot : FsNode :=
  .dir 1000 1000 [("etc", .dir 1000 1000 [("passwd", .file 1000 1000)])]

/-- The options `-R --preserve-root`. -/
def recursePreserve : ChownOptions :=
  { recurse := true, verbosity := 0, forceSilent := false, affectSymlinkReferent := true,
    userName := "root", groupName := "root", preserveRoot := true }

end ChownGo

namespace InitGo

/-! ## Lemmas on the trace -/

theorem foldl_emit_eq {α : Type} (f : α → Event) (l : List α) (s : InitState) :
    l.foldl (fun st a => emit (f a) st) s = { s with trace := s.trace ++ l.map f } := by
  induction l generalizing s with
  | nil => simp
  | cons a l ih => rw [List.foldl_cons, ih]; simp [emit]

theorem applyCgroup_eq (w : World) (pid : Int) (s : InitState) :
    applyCgroup w pid s =
      { s with trace := s.trace ++
          s.cgroups.map (fun entry => Event.writeFile (w.pathJoin [entry.2, "tasks"]) (toString pid)) } := by
  unfold applyCgroup
  exact foldl_emit_eq _ _ _

theorem count_start_writeFile (id : String) (l : List (String × String)) (g : String × String → String)
    (d : String) :
    (l.map (fun entry => Event.writeFile (g entry) d)).count (.print ["Starting process", id]) = 0 := by
  induction l with
  | nil => simp
  | cons a l ih => simp [List.count_cons, ih]

theorem startProcess_startCalls (w : World) (proc : Process) (s : InitState) (id : String) :
    startCalls id (startProcess w proc s).2.trace =
      startCalls id s.trace + (if proc.ID = id then 1 else 0) := by
  have hw := count_start_writeFile id s.cgroups (fun entry => w.pathJoin [entry.2, "tasks"])
    (toString w.getpid)
  have hne : ("Error in process %s: %v\n" = "Starting process") = False := by
    simp
  unfold startProcess
  simp only [applyCgroup_eq, createNamespace, emit, logError, monitorProcess]
  split <;>
    simp only [startCalls, List.count_append, List.count_cons, List.count_nil, hw,
      beq_iff_eq, Event.print.injEq, List.cons.injEq, and_true, reduceCtorEq, hne, false_and,
      true_and, if_false, Nat.add_zero, Nat.zero_add]

theorem foldl_scripts_eq (w : World) (dir : String) (files : List String) (s : InitState) :
    files.foldl
      (fun st name =>
        if startsWith name "S" then executeLSB (w.pathJoin [dir, name]) "start" st
        else if startsWith name "K" then executeLSB (w.pathJoin [dir, name]) "stop" st
        else st) s
      = { s with trace := s.trace ++ files.filterMap (scriptRun w dir) } := by
  induction files generalizing s with
  | nil => simp
  | cons name files ih =>
    rw [List.foldl_cons, ih]
    by_cases hS : startsWith name "S" = true
    · simp [scriptRun, hS, executeLSB, emit]
    · by_cases hK : startsWith name "K" = true
      · simp [scriptRun, hS, hK, executeLSB, emit]
      · simp [scriptRun, hS, hK]

theorem manageServices_eq (w : World) (runlevel : String) (s : InitState) :
    manageServices w runlevel s =
      { s with trace := s.trace ++ manageEvents w runlevel s.trace } := by
  unfold manageServices
  simp only [foldl_scripts_eq, emit, manageEvents, List.append_assoc, List.singleton_append]

theorem changeRunlevel_eq (w : World) (level : String) (s : InitState) :
    changeRunlevel w level s =
      { s with
        currentRunlevel := level
        trace := s.trace ++ Event.print ["Changing to runlevel %s\n", level] ::
          manageEvents w level (s.trace ++ [Event.print ["Changing to runlevel %s\n", level]]) } := by
  unfold changeRunlevel
  simp only [manageServices_eq, emit, List.append_assoc, List.singleton_append]

theorem print_not_mem_scripts (w : World) (dir : String) (files : List String)
    (args : List String) :
    Event.print args ∉ files.filterMap (scriptRun w dir) := by
  intro hmem
  obtain ⟨name, _, hname⟩ := List.mem_filterMap.mp hmem
  unfold scriptRun at hname
  split at hname
  · simp at hname
  · split at hname <;> simp at hname

theorem changeRunlevel_startCalls (w : World) (level : String) (s : InitState) (id : String) :
    startCalls id (changeRunlevel w level s).trace = startCalls id s.trace := by
  have h1 : ("Changing to runlevel %s\n" = "Starting process") = False := by simp
  have h2 : ("Managing services for runlevel %s\n" = "Starting process") = False := by simp
  rw [changeRunlevel_eq]
  simp only [startCalls, manageEvents, List.count_append, List.count_cons, List.count_nil,
    List.count_eq_zero.mpr (print_not_mem_scripts w _ _ _),
    beq_iff_eq, Event.print.injEq, List.cons.injEq, h1, h2, false_and, if_false, Nat.add_zero]

theorem toNat_ofNat_of_valid (n : Nat) (h : n.isValidChar) : (Char.ofNat n).toNat = n := by
  unfold Char.ofNat
  rw [dif_pos h]
  rfl

theorem int32LE_spec (b0 b1 b2 b3 : Byte) :
    -2147483648 ≤ int32LE b0 b1 b2 b3 ∧ int32LE b0 b1 b2 b3 < 2147483648 ∧
    int32LE b0 b1 b2 b3 % 4294967296 =
      ((b0.val : Int) + 256 * b1.val + 65536 * b2.val + 16777216 * b3.val) % 4294967296 := by
  have h0 := b0.isLt
  have h1 := b1.isLt
  have h2 := b2.isLt
  have h3 := b3.isLt
  unfold int32LE
  simp only
  split <;> push_cast <;> omega

theorem dropWhile_reverse_eq_nil {p : Char → Bool} (l : List Char) :
    ((l.dropWhile p).reverse.dropWhile p).reverse = [] ↔ ∀ c ∈ l, p c = true := by
  rw [List.reverse_eq_nil_iff, List.dropWhile_eq_nil_iff]
  constructor
  · intro h
    have hnil : l.dropWhile p = [] := by
      cases hd : l.dropWhile p with
      | nil => rfl
      | cons x xs =>
        have hx : p x = true := h x (by simp [hd])
        have hnot := List.head_dropWhile_not p l (by simp [hd])
        simp [hd, hx] at hnot
    exact List.dropWhile_eq_nil_iff.mp hnil
  · intro h
    rw [List.dropWhile_eq_nil_iff.mpr h]
    simp

theorem trimSpace_eq_empty_iff (line : String) :
    trimSpace line = "" ↔ ∀ c ∈ line.data, isSpace c = true := by
  rw [← dropWhile_reverse_eq_nil]
  unfold trimSpace
  constructor
  · intro h
    exact congrArg String.data h
  · intro h
    rw [h]

theorem length_splitChars (sep : Char) (l : List Char) :
    (splitChars sep l).length = l.count sep + 1 := by
  induction l with
  | nil => simp [splitChars]
  | cons c cs ih =>
    unfold splitChars
    by_cases hc : c = sep
    · simp [hc, ih]
    · have hne : (c == sep) = false := by simpa using hc
      rw [if_neg hc, List.count_cons, hne]
      cases hs : splitChars sep cs with
      | nil => simp [hs] at ih
      | cons piece pieces =>
        rw [hs] at ih
        simpa using ih

theorem readFull_short (bs : List Byte) (rest : List ReadItem) (n : Nat) (acc : List Byte)
    (h : bs.length < n) :
    readFull n acc (bs.map ReadItem.data ++ ReadItem.fail :: rest) = ReadResult.short rest := by
  induction bs generalizing n acc with
  | nil =>
    cases n with
    | zero => simp at h
    | succ n => simp [readFull]
  | cons b bs ih =>
    cases n with
    | zero => simp at h
    | succ n =>
      simp only [List.map_cons, List.cons_append, readFull]
      exact ih n _ (by simpa using h)

/-! ## The exit path of the supervisor -/

/-- C1: for a definition whose action is `respawn`, one exit notification makes
the wait path call `startProcess` exactly once for that definition (and for no
other) when recovery mode is not active, and makes it do nothing at all when
recovery mode is active. -/
theorem onExit_respawn (w : World) (proc : Process) (s : InitState)
    (h : proc.Action = "respawn") :
    (s.recoveryMode = false →
      onExit w proc s = startProcess w proc s ∧
      startCalls proc.ID (onExit w proc s).2.trace = startCalls proc.ID s.trace + 1 ∧
      ∀ id, id ≠ proc.ID → startCalls id (onExit w proc s).2.trace = startCalls id s.trace) ∧
    (s.recoveryMode = true →
      onExit w proc s = (proc, s) ∧
      ∀ id, startCalls id (onExit w proc s).2.trace = startCalls id s.trace) := by
  constructor
  · intro hr
    have hx : onExit w proc s = startProcess w proc s := by
      simp [onExit, h, hr]
    refine ⟨hx, ?_, ?_⟩
    · rw [hx, startProcess_startCalls]; simp
    · intro id hid
      rw [hx, startProcess_startCalls]
      simp [Ne.symm hid]
  · intro hr
    have hx : onExit w proc s = (proc, s) := by
      simp [onExit, hr]
    exact ⟨hx, fun id => by rw [hx]⟩

/-- Witness of C1: a `respawn` entry exits outside recovery mode. -/
theorem onExit_respawn_witness :
    startCalls "a"
      (onExit emptyWorld
        { ID := "a", Runlevels := "23", Action := "respawn", Command := "true",
          PID := 7, Status := "", Cgroup := "", Namespace := "" } initialState).2.trace
      = startCalls "a" initialState.trace + 1 :=
  ((onExit_respawn emptyWorld
      { ID := "a", Runlevels := "23", Action := "respawn", Command := "true",
        PID := 7, Status := "", Cgroup := "", Namespace := "" } initialState rfl).1 rfl).2.1

/-- C2: for a definition whose action is `once` or `wait`, any number of exit
notifications, in or out of recovery mode, leaves the entry and the state as
they were: the wait path never calls `startProcess`. -/
theorem deliverExits_once_wait (w : World) (proc : Process) (s : InitState) (n : Nat)
    (h : proc.Action = "once" ∨ proc.Action = "wait") :
    deliverExits w n proc s = (proc, s) ∧
    ∀ id, startCalls id (deliverExits w n proc s).2.trace = startCalls id s.trace := by
  have hne : proc.Action ≠ "respawn" := by
    rcases h with h | h <;> rw [h] <;> decide
  have hx : onExit w proc s = (proc, s) := by
    simp [onExit, hne]
  have hall : deliverExits w n proc s = (proc, s) := by
    induction n with
    | zero => rfl
    | succ n ih => simp only [deliverExits, hx]; exact ih
  exact ⟨hall, fun id => by rw [hall]⟩

/-- Witness of C2: three exit notifications for a `once` entry. -/
theorem deliverExits_once_wait_witness :
    deliverExits emptyWorld 3
      { ID := "b", Runlevels := "3", Action := "once", Command := "true",
        PID := 9, Status := "", Cgroup := "", Namespace := "" } initialState
      = ({ ID := "b", Runlevels := "3", Action := "once", Command := "true",
           PID := 9, Status := "", Cgroup := "", Namespace := "" }, initialState) :=
  (deliverExits_once_wait emptyWorld
    { ID := "b", Runlevels := "3", Action := "once", Command := "true",
      PID := 9, Status := "", Cgroup := "", Namespace := "" } initialState 3 (Or.inl rfl)).1

/-! ## Runlevel changes -/

/-- C3, as stated, fails: with the table `a:23:respawn:true`, `b:3:once:true`
the definition `a` is valid for runlevel `2`, but after `changeRunlevel("2")`
no definition is running and `startProcess` has not been called for `a`. -/
theorem changeRunlevel_starts_nothing :
    specValidIds "2" exampleTable = ["a"] ∧
    runningIds (changeRunlevel emptyWorld "2" exampleTable) = [] ∧
    startCalls "a" (changeRunlevel emptyWorld "2" exampleTable).trace = 0 ∧
    ¬ (runningIds (changeRunlevel emptyWorld "2" exampleTable) = specValidIds "2" exampleTable) := by
  decide

/-- C3, amended: `changeRunlevel(L)` sets the current runlevel to `L`, prints
its two messages and runs, in the order of the listing of the runlevel
directory, the `S*` scripts with `start` and the `K*` scripts with `stop`; it
leaves the process table, the recovery flag and the set of running
definitions as they were, and calls `startProcess` for no definition. -/
theorem changeRunlevel_effect (w : World) (level : String) (s : InitState) :
    (changeRunlevel w level s).currentRunlevel = level ∧
    (changeRunlevel w level s).processes = s.processes ∧
    (changeRunlevel w level s).recoveryMode = s.recoveryMode ∧
    runningIds (changeRunlevel w level s) = runningIds s ∧
    (changeRunlevel w level s).trace =
      s.trace ++ [Event.print ["Changing to runlevel %s\n", level],
        Event.print ["Managing services for runlevel %s\n", level]] ++
        (w.readDir
          (s.trace ++ [Event.print ["Changing to runlevel %s\n", level],
            Event.print ["Managing services for runlevel %s\n", level]])
          (w.pathJoin [RC_DIR, "rc" ++ level ++ ".d"])).filterMap
            (scriptRun w (w.pathJoin [RC_DIR, "rc" ++ level ++ ".d"])) ∧
    ∀ id, startCalls id (changeRunlevel w level s).trace = startCalls id s.trace := by
  refine ⟨?_, ?_, ?_, ?_, ?_, changeRunlevel_startCalls w level s⟩
  · rw [changeRunlevel_eq]
  · rw [changeRunlevel_eq]
  · rw [changeRunlevel_eq]
  · rw [runningIds, changeRunlevel_eq, runningIds]
  · rw [changeRunlevel_eq]
    simp only [manageEvents, List.append_assoc, List.cons_append, List.nil_append]

/-- C4: calling `changeRunlevel(L)` twice in a row leaves the same current
runlevel, the same process table and the same set of running definitions as
calling it once, whatever the runlevel directory lists at the second call. -/
theorem changeRunlevel_idempotent (w : World) (level : String) (s : InitState) :
    (changeRunlevel w level (changeRunlevel w level s)).currentRunlevel =
      (changeRunlevel w level s).currentRunlevel ∧
    runningIds (changeRunlevel w level (changeRunlevel w level s)) =
      runningIds (changeRunlevel w level s) ∧
    (changeRunlevel w level (changeRunlevel w level s)).processes =
      (changeRunlevel w level s).processes := by
  simp only [changeRunlevel_eq, runningIds, and_self]

/-! ## Control requests -/

/-- C5, as stated, fails: the frame with magic `INIT`, command 0 and payload 3
sets the current runlevel to the one-character string of code point 3, not to
`"3"`, so it is not the call `changeRunlevel("3")`. -/
theorem handleInitRequest_payload_three :
    (handleInitRequest emptyWorld
      { Magic := (0x49, 0x4E, 0x49, 0x54), Cmd := 0, Runlevel := 3 } initialState).currentRunlevel
      = "\x03" ∧
    (changeRunlevel emptyWorld "3" initialState).currentRunlevel = "3" ∧
    handleInitRequest emptyWorld
      { Magic := (0x49, 0x4E, 0x49, 0x54), Cmd := 0, Runlevel := 3 } initialState
      ≠ changeRunlevel emptyWorld "3" initialState := by
  refine ⟨by decide, by decide, ?_⟩
  intro h
  have h2 := congrArg InitState.currentRunlevel h
  revert h2
  decide

/-- C5, amended: a control request with magic `INIT`, command 0 and payload
`n` has the same effect as `changeRunlevel(s)` where `s` is the one-character
string whose character has code point `n`, or the replacement character U+FFFD
when `n` is not a valid code point. -/
theorem handleInitRequest_change (w : World) (req : ControlRequest) (s : InitState)
    (hm : magicBytes req = INIT_MAGIC) (hc : req.Cmd = 0) :
    handleInitRequest w req s = changeRunlevel w (stringOfRune req.Runlevel) s ∧
    ∃ c : Char, stringOfRune req.Runlevel = String.singleton c ∧
      (((0 ≤ req.Runlevel ∧ req.Runlevel < 0xD800) ∨
          (0xE000 ≤ req.Runlevel ∧ req.Runlevel ≤ 0x10FFFF)) → (c.toNat : Int) = req.Runlevel) ∧
      (¬ ((0 ≤ req.Runlevel ∧ req.Runlevel < 0xD800) ∨
          (0xE000 ≤ req.Runlevel ∧ req.Runlevel ≤ 0x10FFFF)) → c.toNat = 0xFFFD) := by
  refine ⟨by simp [handleInitRequest, hm, hc], ?_⟩
  by_cases hv : (0 ≤ req.Runlevel ∧ req.Runlevel < 0xD800) ∨
      (0xE000 ≤ req.Runlevel ∧ req.Runlevel ≤ 0x10FFFF)
  · refine ⟨Char.ofNat req.Runlevel.toNat, by simp [stringOfRune, hv], ?_, fun hn => absurd hv hn⟩
    intro _
    have hvalid : req.Runlevel.toNat.isValidChar := by
      unfold Nat.isValidChar
      omega
    rw [toNat_ofNat_of_valid _ hvalid]
    omega
  · exact ⟨Char.ofNat 0xFFFD, by simp [stringOfRune, hv], fun h => absurd h hv, fun _ => by decide⟩

/-- Witness of C5, amended: the frame with magic `INIT`, command 0 and payload
51 is the call `changeRunlevel("3")`. -/
theorem handleInitRequest_change_witness :
    handleInitRequest emptyWorld
      { Magic := (0x49, 0x4E, 0x49, 0x54), Cmd := 0, Runlevel := 51 } exampleTable
      = changeRunlevel emptyWorld "3" exampleTable :=
  (handleInitRequest_change emptyWorld
    { Magic := (0x49, 0x4E, 0x49, 0x54), Cmd := 0, Runlevel := 51 } exampleTable
    (by decide) rfl).1

/-- C6: a control request whose magic is not `INIT` leaves the whole state as
it was, trace included, for every command code and payload: nothing is
printed, no script is run, `changeRunlevel` and `shutdown` are not called. -/
theorem handleInitRequest_bad_magic (w : World) (req : ControlRequest) (s : InitState)
    (hm : magicBytes req ≠ INIT_MAGIC) :
    handleInitRequest w req s = s := by
  simp [handleInitRequest, hm]

/-- Witness of C6: the magic `XXXX` with the shutdown command. -/
theorem handleInitRequest_bad_magic_witness :
    handleInitRequest emptyWorld
      { Magic := (0x58, 0x58, 0x58, 0x58), Cmd := 1, Runlevel := 3 } exampleTable
      = exampleTable :=
  handleInitRequest_bad_magic emptyWorld
    { Magic := (0x58, 0x58, 0x58, 0x58), Cmd := 1, Runlevel := 3 } exampleTable (by decide)

/-- C8: a control request with magic `INIT` and command 1 is the call of
`shutdown`, whatever its runlevel argument; `shutdown` prints its message,
manages the services of runlevel `0` and then asks for power-off. -/
theorem handleInitRequest_shutdown (w : World) (req : ControlRequest) (s : InitState)
    (hm : magicBytes req = INIT_MAGIC) (hc : req.Cmd = 1) :
    (∀ arg : Int, handleInitRequest w { req with Runlevel := arg } s = shutdown w s) ∧
    handleInitRequest w req s = shutdown w s ∧
    (shutdown w s).trace =
      s.trace ++ Event.print ["Shutting down"] ::
        manageEvents w "0" (s.trace ++ [Event.print ["Shutting down"]]) ++ [Event.reboot] := by
  have hm2 : ∀ arg : Int, magicBytes { req with Runlevel := arg } = INIT_MAGIC := fun _ => hm
  refine ⟨fun arg => ?_, ?_, ?_⟩
  · have hm3 := hm2 arg
    rw [hc] at hm3
    simp [handleInitRequest, hm3, hc]
  · simp [handleInitRequest, hm, hc]
  · simp only [shutdown, manageServices_eq, emit, List.append_assoc, List.singleton_append,
      List.cons_append, List.nil_append]

/-- Witness of C8: the shutdown frame with arguments 0 and 6. -/
theorem handleInitRequest_shutdown_witness :
    handleInitRequest emptyWorld
      { Magic := (0x49, 0x4E, 0x49, 0x54), Cmd := 1, Runlevel := 6 } exampleTable
      = shutdown emptyWorld exampleTable :=
  (handleInitRequest_shutdown emptyWorld
    { Magic := (0x49, 0x4E, 0x49, 0x54), Cmd := 1, Runlevel := 0 } exampleTable
    (by decide) rfl).1 6

/-! ## The decode loop -/

/-- C7: decoding a control frame takes the first 12 bytes of the input and
leaves the rest; the magic is bytes 0-3 as they are, the command code is the
signed 32-bit integer whose little-endian representation is bytes 4-7, and
the runlevel argument is the signed 32-bit integer whose little-endian
representation is bytes 8-11. -/
theorem binaryRead_frame (m0 m1 m2 m3 c0 c1 c2 c3 r0 r1 r2 r3 : Byte)
    (rest : List ReadItem) (req0 : ControlRequest) :
    ∃ req : ControlRequest,
      binaryRead
        ([m0, m1, m2, m3, c0, c1, c2, c3, r0, r1, r2, r3].map ReadItem.data ++ rest) req0
        = some (req, rest) ∧
      req.Magic = (m0, m1, m2, m3) ∧
      (-2147483648 ≤ req.Cmd ∧ req.Cmd < 2147483648 ∧
        req.Cmd % 4294967296 =
          ((c0.val : Int) + 256 * c1.val + 65536 * c2.val + 16777216 * c3.val) % 4294967296) ∧
      (-2147483648 ≤ req.Runlevel ∧ req.Runlevel < 2147483648 ∧
        req.Runlevel % 4294967296 =
          ((r0.val : Int) + 256 * r1.val + 65536 * r2.val + 16777216 * r3.val) % 4294967296) :=
  ⟨{ Magic := (m0, m1, m2, m3), Cmd := int32LE c0 c1 c2 c3, Runlevel := int32LE r0 r1 r2 r3 },
    by simp [binaryRead, readFull, decodeRequest], rfl,
    int32LE_spec c0 c1 c2 c3, int32LE_spec r0 r1 r2 r3⟩

theorem binaryRead_complete (m0 m1 m2 m3 c0 c1 c2 c3 r0 r1 r2 r3 : Byte)
    (rest : List ReadItem) (req0 : ControlRequest) :
    binaryRead
      ([m0, m1, m2, m3, c0, c1, c2, c3, r0, r1, r2, r3].map ReadItem.data ++ rest) req0 =
      some ({ Magic := (m0, m1, m2, m3), Cmd := int32LE c0 c1 c2 c3,
              Runlevel := int32LE r0 r1 r2 r3 }, rest) := by
  simp [binaryRead, readFull, decodeRequest]

theorem binaryRead_broken (bs : List Byte) (rest : List ReadItem) (hlen : bs.length < 12) :
    binaryRead (bs.map ReadItem.data ++ ReadItem.fail :: rest) zeroRequest =
      some (zeroRequest, rest) := by
  simp only [binaryRead, readFull_short bs rest 12 [] hlen]

theorem handleInitRequest_zero (w : World) (s : InitState) :
    handleInitRequest w zeroRequest s = s := by
  have hm : magicBytes zeroRequest ≠ INIT_MAGIC := by decide
  simp [handleInitRequest, hm]

theorem serverLoop_chunks (w : World) (chunks : List ReadChunk) (fuel : Nat) (s : InitState)
    (hwf : ∀ c ∈ chunks, c.wellFormed = true) (hfuel : chunks.length ≤ fuel) :
    serverLoop w fuel (chunks.flatMap ReadChunk.items) s =
      chunks.foldl (fun st c => c.handle w st) s := by
  induction chunks generalizing fuel s with
  | nil =>
    cases fuel with
    | zero => rfl
    | succ fuel => simp [serverLoop, binaryRead, readFull]
  | cons c chunks ih =>
    cases fuel with
    | zero => simp at hfuel
    | succ fuel =>
      have hwf2 : ∀ c ∈ chunks, c.wellFormed = true := fun c hc => hwf c (List.mem_cons_of_mem _ hc)
      have hfuel2 : chunks.length ≤ fuel := by simpa using hfuel
      rw [List.flatMap_cons, List.foldl_cons]
      cases c with
      | complete m0 m1 m2 m3 c0 c1 c2 c3 r0 r1 r2 r3 =>
        simp only [ReadChunk.items, serverLoop, binaryRead_complete, ReadChunk.handle]
        exact ih fuel _ hwf2 hfuel2
      | broken bs =>
        have hlen : bs.length < 12 := of_decide_eq_true (hwf (.broken bs) (by simp))
        simp only [ReadChunk.items, List.append_assoc, List.singleton_append, serverLoop,
          binaryRead_broken bs _ hlen, handleInitRequest_zero, ReadChunk.handle]
        exact ih fuel _ hwf2 hfuel2

/-- C9: when the read of a frame fails after fewer than 12 bytes (a read
error or the end of the input, at once or after some bytes), the request
handed to `handleInitRequest` is the zero request and the state stays as it
was; the loop does not stop there: it goes on to decode what follows, and
handles, in order, the request of every complete frame that follows, dropping
every further broken one. -/
theorem serverLoop_read_failure (w : World) (fuel : Nat) (bs : List Byte)
    (chunks : List ReadChunk) (s : InitState) (hlen : bs.length < 12)
    (hwf : ∀ c ∈ chunks, c.wellFormed = true) (hfuel : chunks.length ≤ fuel) :
    (∀ rest, binaryRead (bs.map ReadItem.data ++ ReadItem.fail :: rest) zeroRequest
      = some (zeroRequest, rest)) ∧
    handleInitRequest w zeroRequest s = s ∧
    (∀ rest, serverLoop w (fuel + 1) (bs.map ReadItem.data ++ ReadItem.fail :: rest) s
      = serverLoop w fuel rest s) ∧
    serverLoop w (fuel + 1)
        (bs.map ReadItem.data ++ ReadItem.fail :: chunks.flatMap ReadChunk.items) s
      = chunks.foldl (fun st c => c.handle w st) s := by
  have hstep : ∀ rest, serverLoop w (fuel + 1)
      (bs.map ReadItem.data ++ ReadItem.fail :: rest) s = serverLoop w fuel rest s := by
    intro rest
    simp only [serverLoop, binaryRead_broken bs rest hlen, handleInitRequest_zero]
  refine ⟨fun rest => binaryRead_broken bs rest hlen, handleInitRequest_zero w s, hstep, ?_⟩
  rw [hstep, serverLoop_chunks w chunks fuel s hwf hfuel]

/-- Witness of C9: three bytes, then the end of the input, then a complete
frame with magic `INIT`, command 0 and payload 51: the loop drops the three
bytes and handles the frame, which is the call `changeRunlevel("3")`. -/
theorem serverLoop_read_failure_witness :
    serverLoop emptyWorld 2
      ([1, 2, 3].map ReadItem.data ++ ReadItem.fail ::
        [0x49, 0x4E, 0x49, 0x54, 0, 0, 0, 0, 51, 0, 0, 0].map ReadItem.data) exampleTable
      = changeRunlevel emptyWorld "3" exampleTable :=
  ((serverLoop_read_failure emptyWorld 1 [1, 2, 3]
    [ReadChunk.complete 0x49 0x4E 0x49 0x54 0 0 0 0 51 0 0 0] exampleTable
    (by decide) (by decide) (by decide)).2.2.2).trans rfl

/-! ## Lines of the service table that are skipped -/

/-- C10: a line that begins with `#`, a line that is empty or made of white
space only, and a line with fewer than three colons (fewer than four fields)
leave the state, and so the table of definitions, as it was. -/
theorem parseInittabLine_skips (line : String) (s : InitState)
    (h : line.data.head? = some '#' ∨ (∀ c ∈ line.data, isSpace c = true) ∨
      line.data.count ':' < 3) :
    parseInittabLine line s = s := by
  unfold parseInittabLine
  rcases h with h | h | h
  · have hp : startsWith line "#" = true := by
      unfold startsWith
      cases hd : line.data with
      | nil => simp [hd] at h
      | cons c cs =>
        rw [hd] at h
        simp only [List.head?_cons, Option.some.injEq] at h
        subst h
        simp [List.isPrefixOf]
    simp [hp]
  · have ht : trimSpace line = "" := (trimSpace_eq_empty_iff line).mpr h
    simp [ht]
  · have hl : (splitColon line).length < 4 := by
      unfold splitColon
      rw [List.length_map, length_splitChars]
      omega
    split
    · rfl
    · split
      · rename_i heq
        rw [heq] at hl
        simp only [List.length_cons] at hl
        omega
      · rfl

/-- Witness of C10: a comment, a blank line and a line of three fields. -/
theorem parseInittabLine_skips_witness :
    parseInittabLine "# id:2:once:true" exampleTable = exampleTable ∧
    parseInittabLine " \t " exampleTable = exampleTable ∧
    parseInittabLine "id:2:once" exampleTable = exampleTable :=
  ⟨parseInittabLine_skips "# id:2:once:true" exampleTable (Or.inl rfl),
   parseInittabLine_skips " \t " exampleTable (Or.inr (Or.inl (by decide))),
   parseInittabLine_skips "id:2:once" exampleTable (Or.inr (Or.inr (by decide)))⟩

/-! ## Lemmas on the fields of a line -/

theorem splitChars_eq (l : List Char) :
    splitChars ':' l =
      l.takeWhile (· != ':') ::
        (match l.dropWhile (· != ':') with
         | [] => []
         | _ :: rest => splitChars ':' rest) := by
  induction l with
  | nil => simp [splitChars]
  | cons c cs ih =>
    by_cases hc : c = ':'
    · subst hc
      simp [splitChars]
    · have hne : (c != ':') = true := by simpa using hc
      rw [splitChars, if_neg hc, ih]
      simp [List.takeWhile_cons, List.dropWhile_cons, hne]

theorem count_dropWhile_colon (l : List Char) :
    (l.dropWhile (· != ':')).count ':' = l.count ':' := by
  induction l with
  | nil => rfl
  | cons c cs ih =>
    by_cases hc : c = ':'
    · subst hc
      simp [List.dropWhile_cons]
    · have hne : (c != ':') = true := by simpa using hc
      have hbeq : (c == ':') = false := by simpa using hc
      simp [List.dropWhile_cons, hne, List.count_cons, hbeq, ih]

theorem dropWhile_colon_head (l : List Char) (x : Char) (rest : List Char)
    (h : l.dropWhile (· != ':') = x :: rest) : x = ':' := by
  have hnot := List.head_dropWhile_not (· != ':') l (by simp [h])
  simpa [h] using hnot

theorem splitChars_getElem (n : Nat) (l : List Char) (h : n ≤ l.count ':') :
    (splitChars ':' l)[n]? = some (specField n l) := by
  induction n generalizing l with
  | zero => rw [splitChars_eq]; simp [specField]
  | succ n ih =>
    rw [splitChars_eq, List.getElem?_cons_succ, specField]
    have hcount := count_dropWhile_colon l
    cases hd : l.dropWhile (· != ':') with
    | nil =>
      rw [hd] at hcount
      simp at hcount
      omega
    | cons x rest =>
      have hx := dropWhile_colon_head l x rest hd
      subst hx
      rw [hd] at hcount
      simp only [List.count_cons_self] at hcount
      simp only [List.tail_cons]
      exact ih rest (by omega)

theorem splitColon_four (line : String) (h : 3 ≤ line.data.count ':') :
    ∃ more : List String,
      splitColon line =
        String.mk (specField 0 line.data) :: String.mk (specField 1 line.data) ::
          String.mk (specField 2 line.data) :: String.mk (specField 3 line.data) :: more := by
  have h0 := splitChars_getElem 0 line.data (by omega)
  have h1 := splitChars_getElem 1 line.data (by omega)
  have h2 := splitChars_getElem 2 line.data (by omega)
  have h3 := splitChars_getElem 3 line.data (by omega)
  unfold splitColon
  match hs : splitChars ':' line.data with
  | [] => rw [hs] at h0; simp at h0
  | [_] => rw [hs] at h1; simp at h1
  | [_, _] => rw [hs] at h2; simp at h2
  | [_, _, _] => rw [hs] at h3; simp at h3
  | a :: b :: c :: d :: more =>
    rw [hs] at h0 h1 h2 h3
    simp at h0 h1 h2 h3
    subst h0 h1 h2 h3
    exact ⟨more.map String.mk, by simp⟩

theorem not_blank_of_colon (line : String) (h : 0 < line.data.count ':') :
    trimSpace line ≠ "" := by
  intro hb
  have hall := (trimSpace_eq_empty_iff line).mp hb
  have hmem : ':' ∈ line.data := List.count_pos_iff.mp h
  have := hall ':' hmem
  revert this
  decide

theorem startsWith_hash_iff (line : String) :
    startsWith line "#" = true ↔ line.data.head? = some '#' := by
  unfold startsWith
  cases hd : line.data with
  | nil => simp [List.isPrefixOf]
  | cons c cs =>
    have hdata : "#".data = ['#'] := rfl
    rw [hdata]
    by_cases hc : c = '#'
    · subst hc
      simp [List.isPrefixOf]
    · have hne : ('#' == c) = false := by
        rw [beq_eq_false_iff_ne]
        exact fun h => hc h.symm
      simp [List.isPrefixOf, hne, hc]

theorem parseInittabLine_eq_spec (line : String) (s : InitState) :
    parseInittabLine line s =
      match specDefinition line with
      | none => s
      | some d => { s with processes := s.processes ++ [d] } := by
  by_cases hskip : line.data.head? = some '#' ∨ line.data.all isSpace = true ∨
      line.data.count ':' < 3
  · have hspec : specDefinition line = none := by rw [specDefinition, if_pos hskip]
    rw [hspec]
    unfold parseInittabLine
    rcases hskip with h | h | h
    · simp [(startsWith_hash_iff line).mpr h]
    · have ht : trimSpace line = "" :=
        (trimSpace_eq_empty_iff line).mpr (by simpa using h)
      simp [ht]
    · have hl : (splitColon line).length < 4 := by
        unfold splitColon
        rw [List.length_map, length_splitChars]
        omega
      split
      · rfl
      · split
        · rename_i heq
          rw [heq] at hl
          simp only [List.length_cons] at hl
          omega
        · rfl
  · have hspec : specDefinition line = some
        { ID := ⟨specField 0 line.data⟩, Runlevels := ⟨specField 1 line.data⟩,
          Action := ⟨specField 2 line.data⟩, Command := ⟨specField 3 line.data⟩,
          PID := 0, Status := "", Cgroup := "", Namespace := "" } := by
      rw [specDefinition, if_neg hskip]
    rw [hspec]
    have hhash : ¬ line.data.head? = some '#' := fun h => hskip (Or.inl h)
    have hcount : ¬ line.data.count ':' < 3 := fun h => hskip (Or.inr (Or.inr h))
    have hsw : startsWith line "#" = false := by
      rw [Bool.eq_false_iff]
      intro h
      exact hhash ((startsWith_hash_iff line).mp h)
    have hblank : (trimSpace line == "") = false := by
      rw [beq_eq_false_iff_ne]
      exact not_blank_of_colon line (by omega)
    obtain ⟨more, hsplit⟩ := splitColon_four line (by omega)
    unfold parseInittabLine
    simp [hsw, hblank, hsplit]

theorem foldl_parse_eq (lines : List String) (s : InitState) :
    lines.foldl (fun st line => parseInittabLine line st) s =
      { s with processes := s.processes ++ lines.filterMap specDefinition } := by
  induction lines generalizing s with
  | nil => simp
  | cons line lines ih =>
    rw [List.foldl_cons, ih, parseInittabLine_eq_spec]
    cases hd : specDefinition line with
    | none => simp [List.filterMap_cons, hd]
    | some d => simp [List.filterMap_cons, hd]

theorem loadInittab_eq (w : World) (s : InitState) :
    loadInittab w s =
      { s with
        processes := s.processes ++
          (w.inittabLines (s.trace ++ [Event.print ["Loading inittab"]])).filterMap specDefinition
        trace := s.trace ++ [Event.print ["Loading inittab"]] } := by
  unfold loadInittab
  simp only [foldl_parse_eq, emit]

theorem takeWhile_colon_append (a r : List Char) (h : ':' ∉ a) :
    (a ++ ':' :: r).takeWhile (· != ':') = a := by
  induction a with
  | nil => simp
  | cons x xs ih =>
    have hx : x ≠ ':' := fun e => h (by simp [e])
    have hxs : ':' ∉ xs := fun e => h (List.mem_cons_of_mem _ e)
    simp [List.takeWhile_cons, hx, ih hxs]

theorem dropWhile_colon_append (a r : List Char) (h : ':' ∉ a) :
    (a ++ ':' :: r).dropWhile (· != ':') = ':' :: r := by
  induction a with
  | nil => simp
  | cons x xs ih =>
    have hx : x ≠ ':' := fun e => h (by simp [e])
    have hxs : ':' ∉ xs := fun e => h (List.mem_cons_of_mem _ e)
    simp [List.dropWhile_cons, hx, ih hxs]

theorem takeWhile_colon_free (a : List Char) (h : ':' ∉ a) :
    a.takeWhile (· != ':') = a := by
  rw [List.takeWhile_eq_self_iff]
  intro x hx
  have : x ≠ ':' := fun e => h (e ▸ hx)
  simpa using this

theorem specDefinition_four (id rl act cmd : List Char)
    (hid : ':' ∉ id) (hrl : ':' ∉ rl) (hact : ':' ∉ act) (hcmd : ':' ∉ cmd)
    (hhash : id.head? ≠ some '#') :
    specDefinition ⟨id ++ ':' :: (rl ++ ':' :: (act ++ ':' :: cmd))⟩ =
      some { ID := ⟨id⟩, Runlevels := ⟨rl⟩, Action := ⟨act⟩, Command := ⟨cmd⟩,
             PID := 0, Status := "", Cgroup := "", Namespace := "" } := by
  have hcount : (id ++ ':' :: (rl ++ ':' :: (act ++ ':' :: cmd))).count ':' = 3 := by
    simp [List.count_append, List.count_cons, List.count_eq_zero.mpr hid,
      List.count_eq_zero.mpr hrl, List.count_eq_zero.mpr hact, List.count_eq_zero.mpr hcmd]
  have hhead : (id ++ ':' :: (rl ++ ':' :: (act ++ ':' :: cmd))).head? ≠ some '#' := by
    cases id with
    | nil => simp
    | cons x xs => simpa using hhash
  have hspace : ¬ ((id ++ ':' :: (rl ++ ':' :: (act ++ ':' :: cmd))).all isSpace = true) := by
    intro hall
    rw [List.all_eq_true] at hall
    have := hall ':' (by simp)
    revert this
    decide
  have hskip : ¬ ((id ++ ':' :: (rl ++ ':' :: (act ++ ':' :: cmd))).head? = some '#' ∨
      (id ++ ':' :: (rl ++ ':' :: (act ++ ':' :: cmd))).all isSpace = true ∨
      (id ++ ':' :: (rl ++ ':' :: (act ++ ':' :: cmd))).count ':' < 3) := by
    rintro (h | h | h)
    · exact hhead h
    · exact hspace h
    · omega
  rw [specDefinition, if_neg hskip]
  simp only [specField, takeWhile_colon_append _ _ hid, dropWhile_colon_append _ _ hid,
    takeWhile_colon_append _ _ hrl, dropWhile_colon_append _ _ hrl,
    takeWhile_colon_append _ _ hact, dropWhile_colon_append _ _ hact,
    takeWhile_colon_free _ hcmd, List.tail_cons]

/-! ## Loading the service table -/

/-- C11: loading the service table into the initial (empty) table yields, in
the order of the lines, one definition for each line that is not a comment,
not blank and has at least four colon-delimited fields, made of its first four
fields; for a line `ID:RUNLEVELS:ACTION:COMMAND` of four colon-free fields
the definition has identifier `ID`, runlevels `RUNLEVELS`, action `ACTION`
and command `COMMAND`. -/
theorem loadInittab_table (w : World) (id rl act cmd : String)
    (hid : ':' ∉ id.data) (hrl : ':' ∉ rl.data) (hact : ':' ∉ act.data)
    (hcmd : ':' ∉ cmd.data) (hhash : id.data.head? ≠ some '#') :
    (loadInittab w initialState).processes =
      (w.inittabLines [Event.print ["Loading inittab"]]).filterMap specDefinition ∧
    specDefinition (id ++ ":" ++ rl ++ ":" ++ act ++ ":" ++ cmd) =
      some { ID := id, Runlevels := rl, Action := act, Command := cmd,
             PID := 0, Status := "", Cgroup := "", Namespace := "" } ∧
    (parseInittabLine (id ++ ":" ++ rl ++ ":" ++ act ++ ":" ++ cmd) initialState).processes =
      [{ ID := id, Runlevels := rl, Action := act, Command := cmd,
         PID := 0, Status := "", Cgroup := "", Namespace := "" }] := by
  have hline : id ++ ":" ++ rl ++ ":" ++ act ++ ":" ++ cmd =
      ⟨id.data ++ ':' :: (rl.data ++ ':' :: (act.data ++ ':' :: cmd.data))⟩ := by
    apply String.ext
    simp [String.data_append]
  have hspec := specDefinition_four id.data rl.data act.data cmd.data hid hrl hact hcmd hhash
  refine ⟨?_, ?_, ?_⟩
  · rw [loadInittab_eq]
    simp [initialState]
  · rw [hline, hspec]
  · rw [parseInittabLine_eq_spec, hline, hspec]
    simp [initialState]

/-- Witness of C11: the table of one line `a:23:respawn:true`. -/
theorem loadInittab_table_witness :
    (loadInittab tableWorld initialState).processes =
      [{ ID := "a", Runlevels := "23", Action := "respawn", Command := "true",
         PID := 0, Status := "", Cgroup := "", Namespace := "" }] :=
  ((loadInittab_table tableWorld "a" "23" "respawn" "true"
      (by decide) (by decide) (by decide) (by decide) (by decide)).1).trans
    (by decide)

theorem reloadConfig_eq (w : World) (s : InitState) :
    reloadConfig w s =
      { s with
        processes := s.processes ++
          (w.inittabLines
            (s.trace ++ [Event.print ["Reloading configuration"],
              Event.print ["Loading inittab"]])).filterMap specDefinition
        trace := s.trace ++ [Event.print ["Reloading configuration"],
          Event.print ["Loading inittab"]] } := by
  unfold reloadConfig
  simp only [loadInittab_eq, emit, List.append_assoc, List.singleton_append]

/-- C12, evaluated on the code: `reloadConfig` does not empty the table, it
appends the definitions of the new service table to the old ones; after a
boot with the table `a:23:respawn:true` and one reload of the same table the
table holds the definition `a` twice, whereas loading the table into an empty
table gives it once. -/
theorem reloadConfig_appends (w : World) (s : InitState) :
    (reloadConfig w s).processes =
      s.processes ++
        (w.inittabLines
          (s.trace ++ [Event.print ["Reloading configuration"],
            Event.print ["Loading inittab"]])).filterMap specDefinition ∧
    ((loadInittab tableWorld initialState).processes).map (·.ID) = ["a"] ∧
    ((reloadConfig tableWorld (loadInittab tableWorld initialState)).processes).map (·.ID)
      = ["a", "a"] ∧
    (reloadConfig tableWorld (loadInittab tableWorld initialState)).processes ≠
      (loadInittab tableWorld initialState).processes := by
  refine ⟨?_, by decide, by decide, by decide⟩
  rw [reloadConfig_eq]

/-! ## Boot -/

/-- C13: at boot, `checkRecoveryMode` on the initial state sets recovery mode
and the runlevel `1` when the kernel command line contains `recovery` as a
substring; otherwise recovery mode stays unset and the runlevel stays the
default `2`. -/
theorem checkRecoveryMode_boot (w : World) :
    ((∃ before after : List Char,
        (w.cmdline [Event.print ["Checking for recovery mode"]]).data =
          before ++ "recovery".data ++ after) →
      (checkRecoveryMode w initialState).recoveryMode = true ∧
      (checkRecoveryMode w initialState).currentRunlevel = "1") ∧
    ((¬ ∃ before after : List Char,
        (w.cmdline [Event.print ["Checking for recovery mode"]]).data =
          before ++ "recovery".data ++ after) →
      (checkRecoveryMode w initialState).recoveryMode = false ∧
      (checkRecoveryMode w initialState).currentRunlevel = "2") := by
  have hiff : kernelParamExists w RECOVERY_MODE
        (emit (Event.print ["Checking for recovery mode"]) initialState) = true ↔
      ∃ before after : List Char,
        (w.cmdline [Event.print ["Checking for recovery mode"]]).data =
          before ++ "recovery".data ++ after := by
    simp only [kernelParamExists, stringsContains, decide_eq_true_eq, List.IsInfix, emit,
      initialState, List.nil_append, RECOVERY_MODE]
    constructor
    · rintro ⟨a, b, h⟩
      exact ⟨a, b, h.symm⟩
    · rintro ⟨a, b, h⟩
      exact ⟨a, b, h.symm⟩
  constructor
  · intro h
    have hk := hiff.mpr h
    unfold checkRecoveryMode
    simp only [hk, if_true]
    exact ⟨rfl, rfl⟩
  · intro h
    have hk : kernelParamExists w RECOVERY_MODE
        (emit (Event.print ["Checking for recovery mode"]) initialState) = false := by
      rw [Bool.eq_false_iff]
      exact fun hk => h (hiff.mp hk)
    unfold checkRecoveryMode
    simp only [hk]
    exact ⟨rfl, rfl⟩

/-- Witness of C13: a command line with the marker and one without it. -/
theorem checkRecoveryMode_boot_witness :
    ((checkRecoveryMode recoveryWorld initialState).recoveryMode = true ∧
      (checkRecoveryMode recoveryWorld initialState).currentRunlevel = "1") ∧
    ((checkRecoveryMode tableWorld initialState).recoveryMode = false ∧
      (checkRecoveryMode tableWorld initialState).currentRunlevel = "2") :=
  ⟨(checkRecoveryMode_boot recoveryWorld).1
      ⟨"BOOT_IMAGE=/vmlinuz root=/dev/sda1 ".data, [], by decide⟩,
   (checkRecoveryMode_boot tableWorld).2
      (fun ⟨before, after, h⟩ =>
        absurd (show "recovery".data <:+:
            (tableWorld.cmdline [Event.print ["Checking for recovery mode"]]).data from
          ⟨before, after, h.symm⟩) (by decide))⟩

/-! ## Lemmas on `startProcess` -/

theorem startProcess_eq (w : World) (proc : Process) (s : InitState) :
    startProcess w proc s =
      match w.cmdStart (s.trace ++ prepareEvents w proc s) ["/bin/sh", "-c", proc.Command] with
      | none =>
        (proc, { s with trace := s.trace ++ prepareEvents w proc s ++
          [Event.start ["/bin/sh", "-c", proc.Command] (getCloneFlags s proc),
            Event.print ["Error in process %s: %v\n", proc.ID]] })
      | some pid =>
        ({ proc with PID := pid }, { s with trace := s.trace ++ prepareEvents w proc s ++
          [Event.start ["/bin/sh", "-c", proc.Command] (getCloneFlags s proc),
            Event.goWait proc.ID pid] }) := by
  unfold startProcess
  simp only [applyCgroup_eq, createNamespace, emit, logError, monitorProcess, prepareEvents,
    getCloneFlags, List.append_assoc, List.singleton_append, List.cons_append, List.nil_append]

theorem startProcess_trace (w : World) (proc : Process) (s : InitState) :
    ∃ last : Event,
      (startProcess w proc s).2.trace =
        s.trace ++ prepareEvents w proc s ++
          [Event.start ["/bin/sh", "-c", proc.Command] (getCloneFlags s proc), last] ∧
      ((∃ pid, last = Event.goWait proc.ID pid) ∨
        last = Event.print ["Error in process %s: %v\n", proc.ID]) := by
  rw [startProcess_eq]
  split
  · exact ⟨_, rfl, Or.inr rfl⟩
  · exact ⟨_, rfl, Or.inl ⟨_, rfl⟩⟩

theorem startProcess_frame (w : World) (proc : Process) (s : InitState) :
    (startProcess w proc s).2.processes = s.processes ∧
    (startProcess w proc s).2.currentRunlevel = s.currentRunlevel ∧
    (startProcess w proc s).2.recoveryMode = s.recoveryMode := by
  rw [startProcess_eq]
  split <;> exact ⟨rfl, rfl, rfl⟩

theorem countP_prepareEvents (w : World) (proc : Process) (s : InitState)
    (p : Event → Bool) (hprint : ∀ args, p (Event.print args) = false)
    (hwrite : ∀ path data, p (Event.writeFile path data) = false)
    (hunshare : ∀ flags, p (Event.unshare flags) = false) :
    (prepareEvents w proc s).countP p = 0 := by
  rw [List.countP_eq_zero]
  intro e he
  simp only [prepareEvents, List.mem_cons, List.mem_append, List.mem_map, List.mem_singleton,
    List.not_mem_nil, or_false] at he
  rcases he with h | ⟨entry, _, h⟩ | h
  · simp [h, hprint]
  · simp [← h, hwrite]
  · simp [h, hunshare]

/-! ## Failed starts and exits -/

/-- C14, as stated, fails: when the start of the command of entry `a` fails, the
failure is logged with the identifier and no wait path is set up, but the
status of the entry is still empty, not `failed`, in the entry handed to
`startProcess` and in the table. -/
theorem startProcess_failure_status :
    (startProcess emptyWorld entryA exampleTable).1.Status = "" ∧
    (startProcess emptyWorld entryA exampleTable).1.Status ≠ "failed" ∧
    (startProcess emptyWorld entryA exampleTable).2.processes = [entryA, entryB] ∧
    (startProcess emptyWorld entryA exampleTable).2.trace =
      [Event.print ["Starting process", "a"], Event.unshare CLONE_NEWPID,
        Event.start ["/bin/sh", "-c", "true"] CLONE_NEWPID,
        Event.print ["Error in process %s: %v\n", "a"]] := by
  decide

/-- C14, amended: when launching the command fails in `startProcess`, the
failure is logged with the identifier of the definition as the last call,
the entry and the table are left as they were (no status is recorded), and no
wait path is set up. -/
theorem startProcess_failure (w : World) (proc : Process) (s : InitState)
    (hfail : w.cmdStart (s.trace ++ prepareEvents w proc s)
      ["/bin/sh", "-c", proc.Command] = none) :
    (startProcess w proc s).1 = proc ∧
    (startProcess w proc s).2.processes = s.processes ∧
    (startProcess w proc s).2.trace =
      s.trace ++ prepareEvents w proc s ++
        [Event.start ["/bin/sh", "-c", proc.Command] (getCloneFlags s proc),
          Event.print ["Error in process %s: %v\n", proc.ID]] ∧
    ∀ id pid, (startProcess w proc s).2.trace.count (Event.goWait id pid) =
      s.trace.count (Event.goWait id pid) := by
  have hp : ∀ id pid, (prepareEvents w proc s).count (Event.goWait id pid) = 0 := by
    intro id pid
    exact countP_prepareEvents w proc s _ (fun _ => by simp) (fun _ _ => by simp)
      (fun _ => by simp)
  rw [startProcess_eq, hfail]
  refine ⟨rfl, rfl, rfl, ?_⟩
  intro id pid
  simp [List.count_append, List.count_cons, hp id pid]

/-- Witness of C14, amended: the start of entry `a` fails. -/
theorem startProcess_failure_witness :
    (startProcess emptyWorld entryA exampleTable).1 = entryA :=
  (startProcess_failure emptyWorld entryA exampleTable rfl).1

/-- C15, as stated, fails: after an exit notification for the `once` entry `b`
its status is still empty, not `exited`. -/
theorem onExit_status_not_exited :
    (onExit emptyWorld entryB exampleTable).1.Status = "" ∧
    (onExit emptyWorld entryB exampleTable).1.Status ≠ "exited" ∧
    (onExit emptyWorld entryB exampleTable).2.processes = [entryA, entryB] := by
  decide

/-- C15, amended: for a definition whose action is `once` or `wait`, an exit
notification leaves the entry as it was, its status included, and leaves the
table as it was. -/
theorem onExit_once_wait_status (w : World) (proc : Process) (s : InitState)
    (h : proc.Action = "once" ∨ proc.Action = "wait") :
    (onExit w proc s).1 = proc ∧
    (onExit w proc s).1.Status = proc.Status ∧
    (onExit w proc s).2.processes = s.processes := by
  have hne : proc.Action ≠ "respawn" := by
    rcases h with h | h <;> rw [h] <;> decide
  have hx : onExit w proc s = (proc, s) := by
    simp [onExit, hne]
  rw [hx]
  exact ⟨rfl, rfl, rfl⟩

/-- Witness of C15, amended: the `once` entry `b` exits. -/
theorem onExit_once_wait_status_witness :
    (onExit emptyWorld entryB exampleTable).1 = entryB :=
  (onExit_once_wait_status emptyWorld entryB exampleTable (Or.inl rfl)).1

/-! ## Isolation -/

/-- C16, as stated, fails: for a definition that requests the `full` profile,
in the state that `createNamespaces` leaves, the clone flags with which
`startProcess` starts the command have the PID and mount flags but neither
the UTS nor the IPC flag; and for a definition that does not request `full`
they have the mount flag all the same. -/
theorem startProcess_cloneflags_full :
    Event.start ["/bin/sh", "-c", "true"] (CLONE_NEWPID ||| CLONE_NEWNS) ∈
      (startProcess tableWorld { entryA with Namespace := "full" }
        (createNamespaces exampleTable)).2.trace ∧
    hasFlag (CLONE_NEWPID ||| CLONE_NEWNS) CLONE_NEWUTS = false ∧
    hasFlag (CLONE_NEWPID ||| CLONE_NEWNS) CLONE_NEWIPC = false ∧
    Event.start ["/bin/sh", "-c", "true"] (CLONE_NEWPID ||| CLONE_NEWNS) ∈
      (startProcess tableWorld entryA (createNamespaces exampleTable)).2.trace ∧
    hasFlag (CLONE_NEWPID ||| CLONE_NEWNS) CLONE_NEWNS = true := by
  decide

/-- C16, amended: `startProcess` uses two sets of namespace flags, both with
the PID flag.  The flags of the `unshare` call it makes before the start have
the mount, UTS and IPC flags exactly when the definition requests `full`.
The clone flags it passes at process creation have the mount flag exactly
when the map `namespaces` has `mount` set, and never the UTS or IPC flag. -/
theorem startProcess_flags (w : World) (proc : Process) (s : InitState) :
    ∃ unshareFlags cloneFlags : Nat,
      Event.unshare unshareFlags ∈ (startProcess w proc s).2.trace ∧
      Event.start ["/bin/sh", "-c", proc.Command] cloneFlags ∈ (startProcess w proc s).2.trace ∧
      hasFlag unshareFlags CLONE_NEWPID = true ∧
      (hasFlag unshareFlags CLONE_NEWNS = true ↔ proc.Namespace = "full") ∧
      (hasFlag unshareFlags CLONE_NEWUTS = true ↔ proc.Namespace = "full") ∧
      (hasFlag unshareFlags CLONE_NEWIPC = true ↔ proc.Namespace = "full") ∧
      hasFlag cloneFlags CLONE_NEWPID = true ∧
      (hasFlag cloneFlags CLONE_NEWNS = true ↔ s.namespaces.lookup "mount" = some true) ∧
      hasFlag cloneFlags CLONE_NEWUTS = false ∧
      hasFlag cloneFlags CLONE_NEWIPC = false := by
  obtain ⟨last, htrace, _⟩ := startProcess_trace w proc s
  refine ⟨if proc.Namespace = "full" then
      CLONE_NEWPID ||| (CLONE_NEWNS ||| CLONE_NEWUTS ||| CLONE_NEWIPC) else CLONE_NEWPID,
    getCloneFlags s proc, ?_, ?_, ?_⟩
  · rw [htrace]
    simp [prepareEvents]
  · rw [htrace]
    simp
  · unfold getCloneFlags
    by_cases hfull : proc.Namespace = "full" <;>
      by_cases hmount : s.namespaces.lookup "mount" = some true <;>
      simp only [hfull, hmount, if_true, if_false, iff_true, iff_false, true_iff] <;>
      decide

/-! ## Control groups -/

/-- C17, as stated, fails: with the control groups of `initCgroups`, a
supervisor of pid 1 and a command that starts with pid 42, `startProcess`
writes `1` to the three `tasks` files, and does so before the start; it
writes `42` nowhere. -/
theorem startProcess_cgroup_before_spawn :
    (startProcess tableWorld entryA (initCgroups tableWorld initialState)).1.PID = 42 ∧
    (startProcess tableWorld entryA (initCgroups tableWorld initialState)).2.trace =
      (initCgroups tableWorld initialState).trace ++
      [Event.print ["Starting process", "a"],
        Event.writeFile "/sys/fs/cgroup/cpu/init.scope/tasks" "1",
        Event.writeFile "/sys/fs/cgroup/memory/init.scope/tasks" "1",
        Event.writeFile "/sys/fs/cgroup/devices/init.scope/tasks" "1",
        Event.unshare CLONE_NEWPID,
        Event.start ["/bin/sh", "-c", "true"] CLONE_NEWPID,
        Event.goWait "a" 42] ∧
    Event.writeFile "/sys/fs/cgroup/cpu/init.scope/tasks" "42" ∉
      (startProcess tableWorld entryA (initCgroups tableWorld initialState)).2.trace := by
  decide

/-- C17, amended: in `startProcess` the cgroup attachment happens before the
start and names the supervisor: for every start, the calls are the message,
then one write of the supervisor's own pid to the `tasks` file of each entry
of `cgroups`, then `unshare`, then the start of the command, then one last
call (the wait path on success, the error message on failure), which is not a
write. -/
theorem startProcess_cgroup_order (w : World) (proc : Process) (s : InitState) :
    ∃ last : Event,
      (startProcess w proc s).2.trace =
        s.trace ++
          [Event.print ["Starting process", proc.ID]] ++
          s.cgroups.map
            (fun entry => Event.writeFile (w.pathJoin [entry.2, "tasks"]) (toString w.getpid)) ++
          [Event.unshare
              (if proc.Namespace = "full" then
                CLONE_NEWPID ||| (CLONE_NEWNS ||| CLONE_NEWUTS ||| CLONE_NEWIPC)
              else CLONE_NEWPID),
            Event.start ["/bin/sh", "-c", proc.Command] (getCloneFlags s proc), last] ∧
      ((∃ pid, (startProcess w proc s).1.PID = pid ∧ last = Event.goWait proc.ID pid) ∨
        last = Event.print ["Error in process %s: %v\n", proc.ID]) := by
  rw [startProcess_eq]
  split
  · exact ⟨_, by simp [prepareEvents], Or.inr rfl⟩
  · exact ⟨_, by simp [prepareEvents], Or.inl ⟨_, rfl, rfl⟩⟩

/-! ## Shutdown and recovery -/

theorem runSteps_preserves {α : Type} (proj : InitState → α)
    (steps : List (InitState → InitState))
    (h : ∀ step ∈ steps, ∀ s, proj (step s) = proj s) (s : InitState) :
    proj (runSteps steps s) = proj s := by
  induction steps generalizing s with
  | nil => rfl
  | cons step steps ih =>
    have hrest : ∀ f ∈ steps, ∀ s, proj (f s) = proj s :=
      fun f hf => h f (List.mem_cons_of_mem _ hf)
    show proj (runSteps steps (step s)) = proj s
    rw [ih hrest, h step (by simp)]

theorem runSteps_append (a b : List (InitState → InitState)) (s : InitState) :
    runSteps (a ++ b) s = runSteps b (runSteps a s) := by
  simp [runSteps, List.foldl_append]

theorem enterRecoveryMode_processes (s : InitState) :
    (enterRecoveryMode s).processes = s.processes := by
  apply runSteps_preserves InitState.processes
  intro step hstep t
  simp only [enterRecoveryModeSteps, killAllProcessesSteps, startEmergencyShellSteps,
    List.cons_append, List.nil_append, List.mem_cons, List.mem_singleton,
    List.not_mem_nil, or_false] at hstep
  rcases hstep with h | h | h | h | h | h | h | h <;> subst h <;> rfl

theorem startEmergencyShell_processes (s : InitState) :
    (startEmergencyShell s).processes = s.processes := rfl

theorem checkRecoveryMode_processes (w : World) (s : InitState) :
    (checkRecoveryMode w s).processes = s.processes := by
  unfold checkRecoveryMode
  simp only
  split <;> rfl

theorem initCgroups_processes (w : World) (s : InitState) :
    (initCgroups w s).processes = s.processes := by
  simp [initCgroups, emit]

theorem specDefinition_pid (line : String) (d : Process) (h : specDefinition line = some d) :
    d.PID = 0 := by
  unfold specDefinition at h
  split at h
  · simp at h
  · simp only [Option.some.injEq] at h
    rw [← h]

theorem handleInitRequest_processes (w : World) (req : ControlRequest) (s : InitState) :
    (handleInitRequest w req s).processes = s.processes := by
  unfold handleInitRequest
  split
  · rfl
  · split
    · rw [changeRunlevel_eq]
    · split
      · simp only [shutdown, manageServices_eq, emit]
      · rfl

theorem handleSignal_noPid (w : World) (sig : Nat) (s : InitState)
    (h : ∀ p ∈ s.processes, p.PID = 0) :
    ∀ p ∈ (handleSignal w sig s).processes, p.PID = 0 := by
  unfold handleSignal
  split
  · rw [reloadConfig_eq]
    intro p hp
    rcases List.mem_append.mp hp with hp | hp
    · exact h p hp
    · obtain ⟨line, _, hline⟩ := List.mem_filterMap.mp hp
      exact specDefinition_pid line p hline
  · split
    · rw [enterRecoveryMode_processes]
      exact h
    · exact h

theorem reachable_noPid (w : World) (s : InitState) (h : Reachable w s) :
    ∀ p ∈ s.processes, p.PID = 0 := by
  induction h with
  | boot => intro p hp; simp [initialState] at hp
  | outsideCall e s _ ih => exact ih
  | recoveryCheck s _ ih => rw [checkRecoveryMode_processes]; exact ih
  | tableLoad s _ ih =>
    rw [loadInittab_eq]
    intro p hp
    rcases List.mem_append.mp hp with hp | hp
    · exact ih p hp
    · obtain ⟨line, _, hline⟩ := List.mem_filterMap.mp hp
      exact specDefinition_pid line p hline
  | cgroupInit s _ ih => rw [initCgroups_processes]; exact ih
  | namespaceInit s _ ih => exact ih
  | services runlevel s _ ih => rw [manageServices_eq]; exact ih
  | emergencyShell s _ ih => exact ih
  | signal sig s _ ih => exact handleSignal_noPid w sig s ih
  | request req s _ ih => rw [handleInitRequest_processes]; exact ih

theorem runningIds_of_noPid (s : InitState) (h : ∀ p ∈ s.processes, p.PID = 0) :
    runningIds s = [] := by
  unfold runningIds
  rw [List.map_eq_nil_iff, List.filter_eq_nil_iff]
  intro p hp
  simp [isRunning, h p hp]

/-- C18: in every state that a run of the program reaches, `shutdown` prints its
message, then makes the transition to runlevel `0` as `manageServices("0")`
does, then issues the power-off request, which is its last call; no
definition is running when the request is issued, nor after it: the running
set is empty. -/
theorem shutdown_power_off_last (w : World) (s : InitState) (h : Reachable w s) :
    shutdown w s =
      emit Event.reboot (manageServices w "0" (emit (Event.print ["Shutting down"]) s)) ∧
    (shutdown w s).trace =
      s.trace ++ Event.print ["Shutting down"] ::
        manageEvents w "0" (s.trace ++ [Event.print ["Shutting down"]]) ++ [Event.reboot] ∧
    (shutdown w s).trace.getLast? = some Event.reboot ∧
    runningIds (manageServices w "0" (emit (Event.print ["Shutting down"]) s)) = [] ∧
    runningIds (shutdown w s) = [] := by
  have hnoPid := reachable_noPid w s h
  have heq : shutdown w s =
      { s with trace := s.trace ++ Event.print ["Shutting down"] ::
        manageEvents w "0" (s.trace ++ [Event.print ["Shutting down"]]) ++ [Event.reboot] } := by
    simp only [shutdown, manageServices_eq, emit, List.append_assoc, List.singleton_append,
      List.cons_append, List.nil_append]
  refine ⟨rfl, by rw [heq], ?_, ?_, ?_⟩
  · rw [heq]
    simp [← List.cons_append, ← List.append_assoc]
  · apply runningIds_of_noPid
    rw [manageServices_eq]
    exact hnoPid
  · apply runningIds_of_noPid
    rw [heq]
    exact hnoPid

/-- Witness of C18: the shutdown after the boot has loaded the service table. -/
theorem shutdown_power_off_last_witness :
    runningIds (shutdown tableWorld (loadInittab tableWorld initialState)) = [] ∧
    (shutdown tableWorld (loadInittab tableWorld initialState)).trace.getLast? =
      some Event.reboot :=
  ⟨(shutdown_power_off_last tableWorld (loadInittab tableWorld initialState)
      (Reachable.tableLoad initialState Reachable.boot)).2.2.2.2,
   (shutdown_power_off_last tableWorld (loadInittab tableWorld initialState)
      (Reachable.tableLoad initialState Reachable.boot)).2.2.1⟩

theorem recoveryMode_after_two_steps (k : Nat) (hk : 2 ≤ k) (s : InitState) :
    (runSteps (enterRecoveryModeSteps.take k) s).recoveryMode = true := by
  have hsplit : enterRecoveryModeSteps.take k =
      [emit (Event.print ["Entering recovery mode"]),
        fun s => { s with recoveryMode := true }] ++
        (killAllProcessesSteps ++ startEmergencyShellSteps).take (k - 2) := by
    unfold enterRecoveryModeSteps
    rw [List.append_assoc, List.take_append_eq_append_take]
    simp [List.take_of_length_le, hk]
  rw [hsplit, runSteps_append]
  have hkeep := runSteps_preserves InitState.recoveryMode
    ((killAllProcessesSteps ++ startEmergencyShellSteps).take (k - 2))
    (by
      intro step hstep t
      have hmem := List.mem_of_mem_take hstep
      simp only [killAllProcessesSteps, startEmergencyShellSteps, List.cons_append,
        List.nil_append, List.mem_cons, List.mem_singleton, List.not_mem_nil,
        or_false] at hmem
      rcases hmem with h | h | h | h | h | h <;> subst h <;> rfl)
  rw [hkeep]
  rfl

/-- C19: the recovery signal is routed to `enterRecoveryMode`, whose statements
are, in this order: its message, the assignment of recovery mode, the
broadcast of `SIGTERM`, the sleep and the broadcast of `SIGKILL`
(`killAllProcesses`), the emergency shell.  Recovery mode is set in the state
in which `SIGTERM` is broadcast; and an exit notification that arrives at any
point after the assignment, so every exit that the broadcast causes, starts
nothing: the run ends as without it. -/
theorem enterRecoveryMode_order (w : World) (s : InitState) (proc : Process) :
    handleSignal w SIGUSR1 s = enterRecoveryMode s ∧
    (enterRecoveryMode s).trace =
      s.trace ++
        [Event.print ["Entering recovery mode"],
          Event.print ["Terminating all processes"],
          Event.kill (-1) SIGTERM, Event.sleep 2, Event.kill (-1) SIGKILL,
          Event.print ["Starting emergency shell"], Event.run ["/bin/sh"]] ∧
    (enterRecoveryMode s).recoveryMode = true ∧
    (runSteps (enterRecoveryModeSteps.take 1) s).recoveryMode = s.recoveryMode ∧
    (runSteps (enterRecoveryModeSteps.take 3) s).recoveryMode = true ∧
    (runSteps (enterRecoveryModeSteps.take 3) s).trace =
      s.trace ++ [Event.print ["Entering recovery mode"],
        Event.print ["Terminating all processes"]] ∧
    (runSteps (enterRecoveryModeSteps.take 4) s).trace =
      s.trace ++ [Event.print ["Entering recovery mode"],
        Event.print ["Terminating all processes"], Event.kill (-1) SIGTERM] ∧
    (∀ k, 2 ≤ k →
      onExit w proc (runSteps (enterRecoveryModeSteps.take k) s) =
        (proc, runSteps (enterRecoveryModeSteps.take k) s) ∧
      exitDuring w enterRecoveryModeSteps k proc s = (proc, enterRecoveryMode s)) := by
  refine ⟨by simp [handleSignal, SIGUSR1, SIGHUP], ?_, ?_, rfl, rfl, ?_, ?_, ?_⟩
  · simp [enterRecoveryMode, enterRecoveryModeSteps, killAllProcessesSteps,
      startEmergencyShellSteps, runSteps, emit]
  · rfl
  · simp [enterRecoveryModeSteps, killAllProcessesSteps, runSteps, emit]
  · simp [enterRecoveryModeSteps, killAllProcessesSteps, runSteps, emit]
  · intro k hk
    have hflag := recoveryMode_after_two_steps k hk s
    have hexit : onExit w proc (runSteps (enterRecoveryModeSteps.take k) s) =
        (proc, runSteps (enterRecoveryModeSteps.take k) s) := by
      simp [onExit, hflag]
    refine ⟨hexit, ?_⟩
    unfold exitDuring
    simp only [hexit]
    rw [← runSteps_append, List.take_append_drop]
    rfl

/-- Witness of C19: the `respawn` entry `a` exits just after the broadcast of
`SIGTERM`, that is after the first four statements. -/
theorem enterRecoveryMode_order_witness :
    exitDuring tableWorld enterRecoveryModeSteps 4 entryA exampleTable =
      (entryA, enterRecoveryMode exampleTable) :=
  ((enterRecoveryMode_order tableWorld exampleTable entryA).2.2.2.2.2.2.2 4 (by decide)).2

/-! ## Repeated starts -/

theorem waitPaths_prepareEvents (w : World) (proc : Process) (s : InitState) :
    waitPaths (prepareEvents w proc s) = [] := by
  unfold waitPaths
  rw [List.filterMap_eq_nil_iff]
  intro e he
  simp only [prepareEvents, List.mem_cons, List.mem_append, List.mem_map, List.mem_singleton,
    List.not_mem_nil, or_false] at he
  rcases he with h | ⟨entry, _, h⟩ | h
  · rw [h]
  · rw [← h]
  · rw [h]

theorem waitPaths_append (a b : List Event) : waitPaths (a ++ b) = waitPaths a ++ waitPaths b := by
  simp [waitPaths, List.filterMap_append]

theorem startProcess_added (w : World) (proc : Process) (s : InitState) :
    waitPaths ((startProcess w proc s).2.trace.drop s.trace.length) =
      match w.cmdStart (s.trace ++ prepareEvents w proc s) ["/bin/sh", "-c", proc.Command] with
      | none => []
      | some pid => [(proc.ID, pid)] := by
  rw [startProcess_eq]
  split <;> rename_i heq <;>
    simp only [heq, List.append_assoc, List.drop_left, waitPaths_append,
      waitPaths_prepareEvents, List.nil_append] <;>
    simp [waitPaths]

theorem onExit_added (w : World) (proc : Process) (s : InitState) :
    waitPaths ((onExit w proc s).2.trace.drop s.trace.length) = [] ∨
    ∃ pid, waitPaths ((onExit w proc s).2.trace.drop s.trace.length) = [(proc.ID, pid)] := by
  unfold onExit
  split
  · rw [startProcess_added]
    split
    · exact Or.inl rfl
    · exact Or.inr ⟨_, rfl⟩
  · left
    simp [waitPaths]

theorem countP_removeLive (live : List (String × Int)) (a : String) (b : Int) (id : String)
    (hx : (a, b) ∈ live) :
    live.countP (fun entry => entry.1 == id) =
      (if a = id then 1 else 0) + (removeLive a b live).countP (fun entry => entry.1 == id) := by
  induction live with
  | nil => simp at hx
  | cons entry rest ih =>
    unfold removeLive
    by_cases he : entry = (a, b)
    · rw [if_pos he, List.countP_cons, he]
      by_cases h : a = id <;> simp [h, Nat.add_comm]
    · rw [if_neg he, List.countP_cons, List.countP_cons]
      have hrest : (a, b) ∈ rest := by
        rcases List.mem_cons.mp hx with h | h
        · exact absurd h.symm he
        · exact h
      rw [ih hrest]
      omega

/-- C20, as stated, fails: `startProcess` called for entry `a` while the
instance it started before is still live (no exit notification has come)
starts the command a second time: the trace holds two starts of the command
and two wait paths, for two pids, and two processes of `a` are live. -/
theorem startProcess_twice_spawns_twice :
    (startProcess spawnWorld entryA exampleTable).1.PID = 102 ∧
    (startProcess spawnWorld (startProcess spawnWorld entryA exampleTable).1
      (startProcess spawnWorld entryA exampleTable).2).1.PID = 106 ∧
    spawnCalls "true"
      (startProcess spawnWorld (startProcess spawnWorld entryA exampleTable).1
        (startProcess spawnWorld entryA exampleTable).2).2.trace = 2 ∧
    (startProcess spawnWorld (startProcess spawnWorld entryA exampleTable).1
      (startProcess spawnWorld entryA exampleTable).2).2.trace =
      [Event.print ["Starting process", "a"], Event.unshare CLONE_NEWPID,
        Event.start ["/bin/sh", "-c", "true"] CLONE_NEWPID, Event.goWait "a" 102,
        Event.print ["Starting process", "a"], Event.unshare CLONE_NEWPID,
        Event.start ["/bin/sh", "-c", "true"] CLONE_NEWPID, Event.goWait "a" 106] ∧
    (directStart spawnWorld (startProcess spawnWorld entryA exampleTable).1
      (directStart spawnWorld entryA (exampleTable, []))).2 = [("a", 102), ("a", 106)] := by
  decide

/-- C20, amended: along the only call path of the code, the wait path of a
definition whose process has exited, every definition keeps at most one live
process.  `startProcess` itself has no guard: for every state and every
entry, whatever pid the entry records, one call makes exactly one more start
of the command; when that start succeeds the entry records the new pid in
place of the old one and one more wait path is set up, so that a call for a
definition whose process is still live leaves two live processes. -/
theorem startProcess_live_instances (w : World) (proc : Process) (s : InitState)
    (live : List (String × Int)) :
    spawnCalls proc.Command (startProcess w proc s).2.trace =
      spawnCalls proc.Command s.trace + 1 ∧
    (∀ pid, w.cmdStart (s.trace ++ prepareEvents w proc s)
        ["/bin/sh", "-c", proc.Command] = some pid →
      (startProcess w proc s).1 = { proc with PID := pid } ∧
      waitPaths (startProcess w proc s).2.trace = waitPaths s.trace ++ [(proc.ID, pid)] ∧
      (directStart w proc (s, live)).2 = live ++ [(proc.ID, pid)]) ∧
    (w.cmdStart (s.trace ++ prepareEvents w proc s) ["/bin/sh", "-c", proc.Command] = none →
      (startProcess w proc s).1 = proc ∧
      waitPaths (startProcess w proc s).2.trace = waitPaths s.trace ∧
      (directStart w proc (s, live)).2 = live) ∧
    ((proc.ID, proc.PID) ∈ live → AtMostOneLive live →
      AtMostOneLive (exitStep w proc (s, live)).2) := by
  refine ⟨?_, ?_, ?_, ?_⟩
  · obtain ⟨last, htrace, hlast⟩ := startProcess_trace w proc s
    have hp := countP_prepareEvents w proc s
      (fun e => match e with
        | .start argv _ => decide (argv = ["/bin/sh", "-c", proc.Command])
        | _ => false)
      (fun _ => rfl) (fun _ _ => rfl) (fun _ => rfl)
    rw [htrace]
    unfold spawnCalls
    rw [List.countP_append, List.countP_append, hp]
    rcases hlast with ⟨pid, h⟩ | h <;> subst h <;> simp [List.countP_cons]
  · intro pid hpid
    have hadded := startProcess_added w proc s
    rw [hpid] at hadded
    refine ⟨?_, ?_, ?_⟩
    · rw [startProcess_eq, hpid]
    · rw [startProcess_eq, hpid]
      simp only [waitPaths_append, waitPaths_prepareEvents, List.append_nil]
      simp [waitPaths]
    · simp only [directStart, hadded]
  · intro hnone
    have hadded := startProcess_added w proc s
    rw [hnone] at hadded
    refine ⟨?_, ?_, ?_⟩
    · rw [startProcess_eq, hnone]
    · rw [startProcess_eq, hnone]
      simp only [waitPaths_append, waitPaths_prepareEvents, List.append_nil]
      simp [waitPaths]
    · simp only [directStart, hadded, List.append_nil]
  · intro hmem hone id
    have hcount := countP_removeLive live proc.ID proc.PID id hmem
    have hle := hone id
    simp only [exitStep, List.countP_append]
    rcases onExit_added w proc s with h | ⟨pid, h⟩
    · rw [h]
      simp only [List.countP_nil, Nat.add_zero]
      omega
    · rw [h]
      by_cases hid : proc.ID = id
      · rw [if_pos hid] at hcount
        have hone1 : List.countP (fun entry : String × Int => entry.1 == id) [(proc.ID, pid)] = 1 := by
          simp [List.countP_cons, hid]
        rw [hone1]
        omega
      · rw [if_neg hid] at hcount
        have hzero : List.countP (fun entry : String × Int => entry.1 == id) [(proc.ID, pid)] = 0 := by
          simp [List.countP_cons, hid]
        rw [hzero]
        omega

/-- Witness of C20, amended: entry `a` is live with pid 102, its process exits,
and the wait path starts it again: one process of `a` is live, with pid 106. -/
theorem startProcess_live_instances_witness :
    AtMostOneLive
      (exitStep spawnWorld (startProcess spawnWorld entryA exampleTable).1
        ((startProcess spawnWorld entryA exampleTable).2, [("a", 102)])).2 ∧
    (exitStep spawnWorld (startProcess spawnWorld entryA exampleTable).1
        ((startProcess spawnWorld entryA exampleTable).2, [("a", 102)])).2 = [("a", 106)] :=
  ⟨(startProcess_live_instances spawnWorld (startProcess spawnWorld entryA exampleTable).1
      (startProcess spawnWorld entryA exampleTable).2 [("a", 102)]).2.2.2
      (by decide) (by intro id; by_cases h : "a" = id <;> simp [List.countP_cons, h]),
   by decide⟩

/-! ## Exits and runlevel changes -/

theorem onExit_startCalls (w : World) (proc : Process) (s : InitState) (id : String) :
    startCalls id (onExit w proc s).2.trace =
      startCalls id s.trace +
        (if proc.Action = "respawn" ∧ s.recoveryMode = false ∧ proc.ID = id then 1 else 0) := by
  unfold onExit
  by_cases h : proc.Action = "respawn" ∧ s.recoveryMode = false
  · rw [if_pos h, startProcess_startCalls]
    simp [h.1, h.2]
  · rw [if_neg h]
    have hn : ¬ (proc.Action = "respawn" ∧ s.recoveryMode = false ∧ proc.ID = id) :=
      fun hh => h ⟨hh.1, hh.2.1⟩
    simp [hn]

theorem changeRunlevel_recoveryMode (w : World) (level : String) (s : InitState) :
    (changeRunlevel w level s).recoveryMode = s.recoveryMode := by
  rw [changeRunlevel_eq]

/-- C21, as stated, fails: entry `a` (action `respawn`, runlevels `23`) is not
valid for runlevel `5`, yet when its process exits after `changeRunlevel("5")`,
or just before it, and recovery mode is not active, `startProcess` is called
for `a` and its command is started again: nothing makes the runlevel change
win. -/
theorem exit_after_stop_respawns :
    specValidFor "5" entryA = false ∧
    startCalls "a"
      (onExit tableWorld entryA (changeRunlevel tableWorld "5" exampleTable)).2.trace = 1 ∧
    spawnCalls "true"
      (onExit tableWorld entryA (changeRunlevel tableWorld "5" exampleTable)).2.trace = 1 ∧
    startCalls "a"
      (changeRunlevel tableWorld "5" (onExit tableWorld entryA exampleTable).2).trace = 1 ∧
    spawnCalls "true"
      (changeRunlevel tableWorld "5" (onExit tableWorld entryA exampleTable).2).trace = 1 := by
  decide

/-- C21, amended: in either order of a runlevel change (`changeRunlevel`) and
the exit notification of the process of `X`, `startProcess` is called for `X`
exactly when the action of `X` is `respawn` and recovery mode is not active:
the runlevel change neither stops `X` nor changes what the wait path
decides. -/
theorem exit_and_changeRunlevel (w : World) (level : String) (proc : Process)
    (s : InitState) :
    startCalls proc.ID (onExit w proc (changeRunlevel w level s)).2.trace =
      startCalls proc.ID s.trace +
        (if proc.Action = "respawn" ∧ s.recoveryMode = false then 1 else 0) ∧
    startCalls proc.ID (changeRunlevel w level (onExit w proc s).2).trace =
      startCalls proc.ID s.trace +
        (if proc.Action = "respawn" ∧ s.recoveryMode = false then 1 else 0) := by
  constructor
  · rw [onExit_startCalls, changeRunlevel_startCalls, changeRunlevel_recoveryMode]
    simp
  · rw [changeRunlevel_startCalls, onExit_startCalls]
    simp

/-! ## Commands with a colon, unknown command codes -/

theorem specDefinition_five (id rl act cmd rest : List Char)
    (hid : ':' ∉ id) (hrl : ':' ∉ rl) (hact : ':' ∉ act) (hcmd : ':' ∉ cmd)
    (hhash : id.head? ≠ some '#') :
    specDefinition ⟨id ++ ':' :: (rl ++ ':' :: (act ++ ':' :: (cmd ++ ':' :: rest)))⟩ =
      some { ID := ⟨id⟩, Runlevels := ⟨rl⟩, Action := ⟨act⟩, Command := ⟨cmd⟩,
             PID := 0, Status := "", Cgroup := "", Namespace := "" } := by
  have hcount : 3 ≤
      (id ++ ':' :: (rl ++ ':' :: (act ++ ':' :: (cmd ++ ':' :: rest)))).count ':' := by
    simp [List.count_append, List.count_cons, List.count_eq_zero.mpr hid,
      List.count_eq_zero.mpr hrl, List.count_eq_zero.mpr hact, List.count_eq_zero.mpr hcmd]
  have hhead :
      (id ++ ':' :: (rl ++ ':' :: (act ++ ':' :: (cmd ++ ':' :: rest)))).head? ≠ some '#' := by
    cases id with
    | nil => simp
    | cons x xs => simpa using hhash
  have hspace :
      ¬ ((id ++ ':' :: (rl ++ ':' :: (act ++ ':' :: (cmd ++ ':' :: rest)))).all isSpace
        = true) := by
    intro hall
    rw [List.all_eq_true] at hall
    have := hall ':' (by simp)
    revert this
    decide
  have hskip :
      ¬ ((id ++ ':' :: (rl ++ ':' :: (act ++ ':' :: (cmd ++ ':' :: rest)))).head? = some '#' ∨
        (id ++ ':' :: (rl ++ ':' :: (act ++ ':' :: (cmd ++ ':' :: rest)))).all isSpace = true ∨
        (id ++ ':' :: (rl ++ ':' :: (act ++ ':' :: (cmd ++ ':' :: rest)))).count ':' < 3) := by
    rintro (h | h | h)
    · exact hhead h
    · exact hspace h
    · omega
  rw [specDefinition, if_neg hskip]
  simp only [specField, takeWhile_colon_append _ _ hid, dropWhile_colon_append _ _ hid,
    takeWhile_colon_append _ _ hrl, dropWhile_colon_append _ _ hrl,
    takeWhile_colon_append _ _ hact, dropWhile_colon_append _ _ hact,
    takeWhile_colon_append _ _ hcmd, List.tail_cons]

/-- C27: for a line of more than four fields, `ID:RUNLEVELS:ACTION:C1:REST`
with colon-free `ID`, `RUNLEVELS`, `ACTION` and `C1`, the definition that
`parseInittabLine` records has the command `C1`, the fourth field alone: the
command text `C1:REST` is cut at its first colon. -/
theorem parseInittabLine_command_cut (id rl act c1 rest : String) (s : InitState)
    (hid : ':' ∉ id.data) (hrl : ':' ∉ rl.data) (hact : ':' ∉ act.data)
    (hc1 : ':' ∉ c1.data) (hhash : id.data.head? ≠ some '#') :
    (parseInittabLine (id ++ ":" ++ rl ++ ":" ++ act ++ ":" ++ c1 ++ ":" ++ rest) s).processes =
      s.processes ++
        [{ ID := id, Runlevels := rl, Action := act, Command := c1,
           PID := 0, Status := "", Cgroup := "", Namespace := "" }] ∧
    c1 ≠ c1 ++ ":" ++ rest := by
  have hline : id ++ ":" ++ rl ++ ":" ++ act ++ ":" ++ c1 ++ ":" ++ rest =
      ⟨id.data ++ ':' :: (rl.data ++ ':' :: (act.data ++ ':' :: (c1.data ++ ':' :: rest.data)))⟩ := by
    apply String.ext
    simp [String.data_append]
  constructor
  · rw [parseInittabLine_eq_spec, hline,
      specDefinition_five id.data rl.data act.data c1.data rest.data hid hrl hact hc1 hhash]
  · intro h
    have hlen := congrArg (fun t : String => t.data.length) h
    have hcolon : (":" : String).data.length = 1 := rfl
    simp only [String.data_append, List.length_append, hcolon] at hlen
    omega

/-- Witness of C27: the command `echo a:b` of the line `x:2:once:echo a:b` is
recorded as `echo a`. -/
theorem parseInittabLine_command_cut_witness :
    (parseInittabLine "x:2:once:echo a:b" initialState).processes =
      [{ ID := "x", Runlevels := "2", Action := "once", Command := "echo a",
         PID := 0, Status := "", Cgroup := "", Namespace := "" }] :=
  (parseInittabLine_command_cut "x" "2" "once" "echo a" "b" initialState
    (by decide) (by decide) (by decide) (by decide) (by decide)).1

/-- C28: a control request with magic `INIT` and a command code other than 0
and 1, negative codes included, leaves the whole state as it was, trace
included: `changeRunlevel` and `shutdown` are not called. -/
theorem handleInitRequest_unknown_command (w : World) (req : ControlRequest) (s : InitState)
    (hm : magicBytes req = INIT_MAGIC) (h0 : req.Cmd ≠ 0) (h1 : req.Cmd ≠ 1) :
    handleInitRequest w req s = s := by
  simp [handleInitRequest, hm, h0, h1]

/-- Witness of C28: the command codes 2 and -1. -/
theorem handleInitRequest_unknown_command_witness :
    handleInitRequest tableWorld
      { Magic := (0x49, 0x4E, 0x49, 0x54), Cmd := 2, Runlevel := 3 } exampleTable
      = exampleTable ∧
    handleInitRequest tableWorld
      { Magic := (0x49, 0x4E, 0x49, 0x54), Cmd := -1, Runlevel := 3 } exampleTable
      = exampleTable :=
  ⟨handleInitRequest_unknown_command tableWorld
      { Magic := (0x49, 0x4E, 0x49, 0x54), Cmd := 2, Runlevel := 3 } exampleTable
      (by decide) (by decide) (by decide),
   handleInitRequest_unknown_command tableWorld
      { Magic := (0x49, 0x4E, 0x49, 0x54), Cmd := -1, Runlevel := 3 } exampleTable
      (by decide) (by decide) (by decide)⟩

end InitGo

/-! ## Pipelines of the shell -/

namespace GshGo

theorem splitLoop_spec (args : List String) (commands : List (List String))
    (currentCmd : List String)
    (hcmds : ∀ cmd ∈ commands, cmd ≠ [] ∧ "|" ∉ cmd) (hcur : "|" ∉ currentCmd) :
    (∀ cmd ∈ splitLoop args commands currentCmd, cmd ≠ [] ∧ "|" ∉ cmd) ∧
    (splitLoop args commands currentCmd).flatten =
      commands.flatten ++ currentCmd ++ args.filter (fun arg => arg ≠ "|") := by
  induction args generalizing commands currentCmd with
  | nil =>
    unfold splitLoop
    by_cases hlen : currentCmd.length > 0
    · rw [if_pos hlen]
      constructor
      · intro cmd hcmd
        rcases List.mem_append.mp hcmd with h | h
        · exact hcmds cmd h
        · rw [List.mem_singleton.mp h]
          exact ⟨List.ne_nil_of_length_pos hlen, hcur⟩
      · simp
    · rw [if_neg hlen]
      have hnil : currentCmd = [] := List.length_eq_zero.mp (by omega)
      exact ⟨hcmds, by simp [hnil]⟩
  | cons arg args ih =>
    unfold splitLoop
    by_cases harg : arg = "|"
    · rw [if_pos harg]
      by_cases hlen : currentCmd.length > 0
      · rw [if_pos hlen]
        have hcmds2 : ∀ cmd ∈ commands ++ [currentCmd], cmd ≠ [] ∧ "|" ∉ cmd := by
          intro cmd hcmd
          rcases List.mem_append.mp hcmd with h | h
          · exact hcmds cmd h
          · rw [List.mem_singleton.mp h]
            exact ⟨List.ne_nil_of_length_pos hlen, hcur⟩
        obtain ⟨h1, h2⟩ := ih (commands ++ [currentCmd]) [] hcmds2 (by simp)
        exact ⟨h1, by rw [h2]; simp [harg]⟩
      · rw [if_neg hlen]
        obtain ⟨h1, h2⟩ := ih commands currentCmd hcmds hcur
        exact ⟨h1, by rw [h2]; simp [harg]⟩
    · rw [if_neg harg]
      have hcur2 : "|" ∉ currentCmd ++ [arg] := by
        intro h
        rcases List.mem_append.mp h with h | h
        · exact hcur h
        · exact harg (List.mem_singleton.mp h).symm
      obtain ⟨h1, h2⟩ := ih commands (currentCmd ++ [arg]) hcmds hcur2
      exact ⟨h1, by rw [h2]; simp [harg]⟩

theorem splitLoop_trailing_pipe (args : List String) (commands : List (List String))
    (currentCmd : List String) :
    splitLoop (args ++ ["|"]) commands currentCmd = splitLoop args commands currentCmd := by
  induction args generalizing commands currentCmd with
  | nil =>
    by_cases hlen : currentCmd.length > 0
    · simp [splitLoop, hlen]
    · simp [splitLoop, hlen]
  | cons arg args ih =>
    by_cases harg : arg = "|"
    · by_cases hlen : currentCmd.length > 0
      · rw [List.cons_append, splitLoop, if_pos harg, if_pos hlen, ih]
        exact (by rw [splitLoop, if_pos harg, if_pos hlen])
      · rw [List.cons_append, splitLoop, if_pos harg, if_neg hlen, ih]
        exact (by rw [splitLoop, if_pos harg, if_neg hlen])
    · rw [List.cons_append, splitLoop, if_neg harg, ih]
      exact (by rw [splitLoop, if_neg harg])

theorem splitLoop_doubled_pipe (xs ys : List String) (commands : List (List String))
    (currentCmd : List String) :
    splitLoop (xs ++ "|" :: "|" :: ys) commands currentCmd
      = splitLoop (xs ++ "|" :: ys) commands currentCmd := by
  induction xs generalizing commands currentCmd with
  | nil =>
    by_cases hlen : currentCmd.length > 0
    · simp [splitLoop, hlen]
    · simp [splitLoop, hlen]
  | cons arg args ih =>
    by_cases harg : arg = "|"
    · by_cases hlen : currentCmd.length > 0
      · rw [List.cons_append, splitLoop, if_pos harg, if_pos hlen, ih]
        exact (by rw [List.cons_append, splitLoop, if_pos harg, if_pos hlen])
      · rw [List.cons_append, splitLoop, if_pos harg, if_neg hlen, ih]
        exact (by rw [List.cons_append, splitLoop, if_pos harg, if_neg hlen])
    · rw [List.cons_append, splitLoop, if_neg harg, ih]
      exact (by rw [List.cons_append, splitLoop, if_neg harg])

theorem splitPipeline_valid (args : List String) :
    pipelineValid (splitPipeline args) = true := by
  obtain ⟨h1, _⟩ := splitLoop_spec args [] [] (by simp) (by simp)
  unfold pipelineValid
  rw [List.all_eq_true]
  intro cmd hcmd
  have hne := (h1 cmd hcmd).1
  cases cmd with
  | nil => exact absurd rfl hne
  | cons a rest => simp

theorem splitPipeline_eq_nil (args : List String) :
    splitPipeline args = [] ↔ ∀ a ∈ args, a = "|" := by
  obtain ⟨h1, h2⟩ := splitLoop_spec args [] [] (by simp) (by simp)
  have hflat : (splitPipeline args).flatten = args.filter (fun arg => arg ≠ "|") := by
    simpa using h2
  constructor
  · intro hnil a ha
    rw [hnil] at hflat
    by_contra hne
    have hmem : a ∈ args.filter (fun arg => arg ≠ "|") := by
      rw [List.mem_filter]
      exact ⟨ha, by simpa using hne⟩
    rw [← hflat] at hmem
    simp at hmem
  · intro hall
    have hfilter : args.filter (fun arg => arg ≠ "|") = [] := by
      rw [List.filter_eq_nil_iff]
      intro a ha
      simpa using hall a ha
    rw [hfilter] at hflat
    cases hres : splitPipeline args with
    | nil => rfl
    | cons cmd rest =>
      exfalso
      have hmem : cmd ∈ splitLoop args [] [] := by
        have : cmd ∈ splitPipeline args := by rw [hres]; simp
        exact this
      have hne := (h1 cmd hmem).1
      rw [hres] at hflat
      simp at hflat
      exact hne hflat.1

theorem dispatchLine_indexOutOfRange (input : String) :
    dispatchLine input = .indexOutOfRange ↔
      CowsayGo.fields input ≠ [] ∧ ∀ a ∈ CowsayGo.fields input, a = "|" := by
  have hvalid := splitPipeline_valid (CowsayGo.fields input)
  have hnil := splitPipeline_eq_nil (CowsayGo.fields input)
  unfold dispatchLine
  by_cases hinput : input = ""
  · subst hinput
    have hfields : CowsayGo.fields "" = [] := by decide
    simp [hfields]
  · rw [if_neg hinput]
    by_cases hlen : (CowsayGo.fields input).length = 0
    · have hfields : CowsayGo.fields input = [] := List.length_eq_zero.mp hlen
      simp [hfields]
    · have hfields : CowsayGo.fields input ≠ [] := fun h => hlen (by rw [h]; rfl)
      simp only [hlen, if_false, hvalid, Bool.true_eq_false]
      by_cases hmany : (splitPipeline (CowsayGo.fields input)).length > 1
      · rw [if_pos hmany]
        constructor
        · intro h
          cases h
        · intro h
          rw [hnil.mpr h.2] at hmany
          simp at hmany
      · rw [if_neg hmany]
        cases hres : splitPipeline (CowsayGo.fields input) with
        | nil => exact ⟨fun _ => ⟨hfields, hnil.mp hres⟩, fun _ => rfl⟩
        | cons cmd rest =>
          constructor
          · intro h
            cases h
          · intro h
            rw [hnil.mpr h.2] at hres
            cases hres

/-- C30: `splitPipeline` never returns an empty command: every command of the
result is non-empty and holds no `|` token, and the commands concatenated are
the arguments without the `|` tokens; so the check for an empty command in
`main` always passes and `Invalid pipe syntax` is never printed.  A leading, a
trailing and a doubled `|` are dropped by `splitPipeline`.  The result is empty
exactly when every argument is `|`, and exactly then, for a line with at least
one argument, `main` indexes `pipelineCommands[0]` out of range: the line `|`
is not accepted silently. -/
theorem splitPipeline_pipe_only_line (args : List String) (input : String) :
    (∀ cmd ∈ splitPipeline args, cmd ≠ [] ∧ "|" ∉ cmd) ∧
    (splitPipeline args).flatten = args.filter (fun arg => arg ≠ "|") ∧
    pipelineValid (splitPipeline args) = true ∧
    dispatchLine input ≠ .invalidPipeSyntax ∧
    splitPipeline ("|" :: args) = splitPipeline args ∧
    splitPipeline (args ++ ["|"]) = splitPipeline args ∧
    (∀ xs ys, splitPipeline (xs ++ "|" :: "|" :: ys) = splitPipeline (xs ++ "|" :: ys)) ∧
    (splitPipeline args = [] ↔ ∀ a ∈ args, a = "|") ∧
    (dispatchLine input = .indexOutOfRange ↔
      CowsayGo.fields input ≠ [] ∧ ∀ a ∈ CowsayGo.fields input, a = "|") ∧
    CowsayGo.fields "|" = ["|"] ∧
    splitPipeline ["|"] = [] ∧
    pipelineValid (splitPipeline ["|"]) = true ∧
    dispatchLine "|" = .indexOutOfRange ∧
    dispatchLine "| |" = .indexOutOfRange ∧
    dispatchLine "| ls" = .single ["ls"] ∧
    dispatchLine "ls | | wc -l |" = .pipeline [["ls"], ["wc", "-l"]] := by
  obtain ⟨h1, h2⟩ := splitLoop_spec args [] [] (by simp) (by simp)
  refine ⟨h1, by simpa using h2, splitPipeline_valid args, ?_, ?_,
    splitLoop_trailing_pipe args [] [], fun xs ys => splitLoop_doubled_pipe xs ys [] [],
    splitPipeline_eq_nil args, dispatchLine_indexOutOfRange input,
    by decide, by decide, by decide, by decide, by decide, by decide, by decide⟩
  · have hvalid := splitPipeline_valid (CowsayGo.fields input)
    unfold dispatchLine
    by_cases hinput : input = ""
    · simp [hinput]
    · rw [if_neg hinput]
      by_cases hlen : (CowsayGo.fields input).length = 0
      · simp [hlen]
      · simp only [hlen, if_false, hvalid, Bool.true_eq_false]
        split
        · simp
        · split <;> simp
  · simp [splitPipeline, splitLoop]

end GshGo

/-! ## Wrapping of `cowsay` -/

namespace CowsayGo

theorem fieldsAux_append_space (a t cur : List Char) :
    fieldsAux (a ++ ' ' :: t) cur = fieldsAux a cur ++ fieldsAux t [] := by
  induction a generalizing cur with
  | nil =>
    have hsp : InitGo.isSpace ' ' = true := by decide
    simp only [List.nil_append, fieldsAux, hsp, if_true]
    by_cases hc : cur = [] <;> simp [hc]
  | cons c a ih =>
    simp only [List.cons_append, fieldsAux]
    by_cases hs : InitGo.isSpace c = true
    · simp only [hs, if_true]
      by_cases hc : cur = [] <;> simp [hc, ih]
    · simp only [hs]
      exact ih _

theorem fieldsAux_word (w cur : List Char) (hw : ∀ c ∈ w, InitGo.isSpace c = false) :
    fieldsAux w cur = if cur ++ w = [] then [] else [cur ++ w] := by
  induction w generalizing cur with
  | nil => simp [fieldsAux]
  | cons c w ih =>
    have hc : InitGo.isSpace c = false := hw c (by simp)
    simp only [fieldsAux, hc]
    rw [ih (cur ++ [c]) (fun x hx => hw x (List.mem_cons_of_mem _ hx))]
    simp

theorem fieldsAux_isWord (s cur : List Char) (hcur : ∀ c ∈ cur, InitGo.isSpace c = false) :
    ∀ w ∈ fieldsAux s cur, IsWord w := by
  induction s generalizing cur with
  | nil =>
    intro w hw
    unfold fieldsAux at hw
    by_cases hc : cur = []
    · simp [hc] at hw
    · simp only [hc, if_false, List.mem_singleton] at hw
      subst hw
      exact ⟨hc, hcur⟩
  | cons c s ih =>
    intro w hw
    unfold fieldsAux at hw
    by_cases hs : InitGo.isSpace c = true
    · simp only [hs, if_true] at hw
      by_cases hc : cur = []
      · simp only [hc, if_true] at hw
        exact ih [] (by simp) w hw
      · simp only [hc, if_false, List.mem_cons] at hw
        rcases hw with h | h
        · subst h
          exact ⟨hc, hcur⟩
        · exact ih [] (by simp) w h
    · simp only [hs] at hw
      refine ih (cur ++ [c]) ?_ w hw
      intro x hx
      rcases List.mem_append.mp hx with h | h
      · exact hcur x h
      · rw [List.mem_singleton.mp h]
        simpa using hs

theorem fields_isWord (line : String) : ∀ w ∈ fields line, IsWord w.data := by
  intro w hw
  unfold fields at hw
  obtain ⟨cs, hcs, rfl⟩ := List.mem_map.mp hw
  exact fieldsAux_isWord line.data [] (by simp) cs hcs

theorem fields_word (w : String) (hw : IsWord w.data) : fields w = [w] := by
  unfold fields
  rw [fieldsAux_word w.data [] hw.2]
  simp [hw.1]

theorem fields_append_word (current w : String) (hw : IsWord w.data) :
    fields (current ++ " " ++ w) = fields current ++ [w] := by
  have hdata : (current ++ " " ++ w).data = current.data ++ ' ' :: w.data := by
    simp [String.data_append]
  unfold fields
  rw [hdata, fieldsAux_append_space, fieldsAux_word w.data [] hw.2]
  simp [hw.1]

theorem byteLen_append_word (current w : String) :
    byteLen (current ++ " " ++ w) = byteLen current + 1 + byteLen w := by
  have hsp : Char.utf8Size ' ' = 1 := by decide
  simp only [byteLen, String.data_append, List.map_append, List.sum_append]
  have hdata : (" " : String).data = [' '] := rfl
  simp only [hdata, List.map_cons, List.map_nil, List.sum_cons, List.sum_nil, hsp]
  omega

theorem wrapLoop_fields (width : Int) (rest lines : List String) (current : String)
    (hrest : ∀ w ∈ rest, IsWord w.data) :
    (wrapLoop width rest lines current).flatMap fields =
      lines.flatMap fields ++ fields current ++ rest := by
  induction rest generalizing lines current with
  | nil => simp [wrapLoop]
  | cons word rest ih =>
    have hword : IsWord word.data := hrest word (by simp)
    have hrest2 : ∀ w ∈ rest, IsWord w.data := fun w hw => hrest w (List.mem_cons_of_mem _ hw)
    unfold wrapLoop
    split
    · rw [ih _ _ hrest2, fields_word word hword]
      simp
    · rw [ih _ _ hrest2, fields_append_word current word hword]
      simp

theorem wrapLoop_width (width : Int) (rest lines : List String) (current : String)
    (hrest : ∀ w ∈ rest, (byteLen w : Int) ≤ width)
    (hlines : ∀ l ∈ lines, (byteLen l : Int) ≤ width)
    (hcur : (byteLen current : Int) ≤ width) :
    ∀ l ∈ wrapLoop width rest lines current, (byteLen l : Int) ≤ width := by
  induction rest generalizing lines current with
  | nil =>
    intro l hl
    simp only [wrapLoop, List.mem_append, List.mem_singleton] at hl
    rcases hl with h | h
    · exact hlines l h
    · rw [h]; exact hcur
  | cons word rest ih =>
    have hword : (byteLen word : Int) ≤ width := hrest word (by simp)
    have hrest2 : ∀ w ∈ rest, (byteLen w : Int) ≤ width :=
      fun w hw => hrest w (List.mem_cons_of_mem _ hw)
    unfold wrapLoop
    split
    · refine ih _ _ hrest2 ?_ hword
      intro l hl
      rcases List.mem_append.mp hl with h | h
      · exact hlines l h
      · rw [List.mem_singleton.mp h]; exact hcur
    · rename_i hfit
      refine ih _ _ hrest2 hlines ?_
      rw [byteLen_append_word]
      push_cast
      omega

/-- C29, as stated, fails: for the empty line and the width -1 there is no
word, so every word is at most -1 bytes long, but `wrapLine` returns one
line, the empty one, of 0 bytes, which is more than -1. -/
theorem wrapLine_negative_width :
    fields "" = [] ∧
    wrapLine "" (-1) = [""] ∧
    ¬ (∀ l ∈ wrapLine "" (-1), (byteLen l : Int) ≤ -1) := by
  decide

/-- C29, amended: for every line and every width, the words of the lines that
`wrapLine` returns, read in order, are the words of the line; and if every
word is at most `width` bytes long, and the line has a word or `width` is not
negative, then every returned line is at most `width` bytes long. -/
theorem wrapLine_words_and_width (line : String) (width : Int) :
    (wrapLine line width).flatMap fields = fields line ∧
    ((∀ w ∈ fields line, (byteLen w : Int) ≤ width) →
      (fields line ≠ [] ∨ 0 ≤ width) →
      ∀ l ∈ wrapLine line width, (byteLen l : Int) ≤ width) := by
  have hwords := fields_isWord line
  cases hf : fields line with
  | nil =>
    have hwrap : wrapLine line width = [""] := by
      unfold wrapLine
      rw [hf]
    rw [hwrap]
    refine ⟨by decide, ?_⟩
    intro _ hor l hl
    rcases hor with h | h
    · exact absurd rfl h
    · simp only [List.mem_singleton] at hl
      rw [hl]
      exact h
  | cons first rest =>
    have hwrap : wrapLine line width = wrapLoop width rest [] first := by
      unfold wrapLine
      rw [hf]
    rw [hwrap]
    rw [hf] at hwords
    constructor
    · rw [wrapLoop_fields width rest [] first
        (fun w hw => hwords w (List.mem_cons_of_mem _ hw)),
        fields_word first (hwords first (by simp))]
      simp
    · intro hall _
      exact wrapLoop_width width rest [] first
        (fun w hw => hall w (List.mem_cons_of_mem _ hw)) (by simp) (hall first (by simp))

/-- Witness of C29, amended: a line of six words wrapped at 9 bytes. -/
theorem wrapLine_words_and_width_witness :
    ∀ l ∈ wrapLine "  hello   big world of cows " 9, (byteLen l : Int) ≤ 9 :=
  (wrapLine_words_and_width "  hello   big world of cows " 9).2 (by decide) (Or.inr (by decide))

end CowsayGo

/-! ## Escapes of `echo` -/

namespace EchoGo

/-- C22, evaluated on the code: with `-e`, the arguments `a\cb` and `c` print
`a c` and a newline: `\c` ends the output of its own argument only, the
later argument and the trailing newline are still written; and the single
argument `a\cb` prints `a` and a newline. -/
theorem processEcho_after_c :
    processEcho escapesOn [bytesOf "a\\cb", bytesOf "c"] = bytesOf "a c\n" ∧
    processEscapeSequences (bytesOf "a\\cb") = bytesOf "a" ∧
    processEcho escapesOn [bytesOf "a\\cb"] = bytesOf "a\n" ∧
    processEcho escapesOn [bytesOf "a\\cb", bytesOf "c"] ≠ bytesOf "a" := by
  decide

end EchoGo

/-! ## Symbolic modes of `chmod` -/

namespace ChmodGo

/-- C23, evaluated on the code: `parseMode("u=rw,go=r")` is 0604, not 0644: the
clause `go=r` is taken for a clause of `o` alone, so the group gets nothing;
and `a=rwx` gives 0666, without any execute bit. -/
theorem parseMode_documented_example :
    parseMode "u=rw,go=r" = ModeResult.ok 0o604 ∧
    parseMode "u=rw,go=r" ≠ ModeResult.ok 0o644 ∧
    parseWhoPerm "go=r" "o=" 0o007 = 0o004 ∧
    parseMode "a=rwx" = ModeResult.ok 0o666 := by
  decide

end ChmodGo

/-! ## The option `-v` of `cat` -/

namespace CatGo

/-- C24, evaluated on the code: with `-v` alone (show-nonprinting set, show-tabs
not set) the line `a<TAB>b` comes out as `a^Ib`: the TAB is written in `^`
notation, not unchanged. -/
theorem processNonprinting_tab :
    processNonprinting { showNonprinting := true, showTabs := false } "a\tb" = "a^Ib" ∧
    processNonprinting { showNonprinting := true, showTabs := false } "a\tb" ≠ "a\tb" ∧
    showRune { showNonprinting := true, showTabs := false } '\t' = ['^', 'I'] := by
  decide

end CatGo

/-! ## The option `-m` of `touch` -/

namespace TouchGo

/-- C25, evaluated on the code: the file `f` was last read at time 100 and last
written at time 200; `touchFile` with only the modification time selected, at
time 300, returns no error and leaves `f` with access time 200, its old
modification time, not its old access time 100. -/
theorem touchFile_mtime_only_moves_atime :
    oneFile "f" = some { atime := 100, mtime := 200 } ∧
    (touchFile permissive "f" MTIME (0, 0) true oneFile).1 = none ∧
    (touchFile permissive "f" MTIME (0, 0) true oneFile).2 "f" =
      some { atime := 200, mtime := 300 } ∧
    getAtime { modTime := 200 } = 200 := by
  decide

end TouchGo

/-! ## The option `--preserve-root` of `chown` -/

namespace ChownGo

/-- C26, evaluated on the code: for the path `/` the test of `--preserve-root`
in `chownFile` is never true, so the walk treats `/` like any other file; with
`-R --preserve-root`, owner 0 and group 0, on a root owned by 1000:1000,
`chownFile` returns no error and changes the ownership of `/` and of every
file under it. -/
theorem chownFile_root_not_preserved (canChown : String → Bool) (options : ChownOptions)
    (uid gid requiredUid requiredGid : Int) (node : FsNode) :
    walkFn canChown options "/" uid gid requiredUid requiredGid "/" node =
      changeOwnership canChown "/" uid gid requiredUid requiredGid node ∧
    (chownFile (fun _ => true) "/" 0 0 (-1) (-1) recursePreserve (some smallRoot)).2 = none ∧
    chownFile (fun _ => true) "/" 0 0 (-1) (-1) recursePreserve (some smallRoot) =
      (some (.dir 0 0 [("etc", .dir 0 0 [("passwd", .file 0 0)])]), none) := by
  refine ⟨?_, by decide, by rfl⟩
  simp [walkFn]

end ChownGo
